import Mathlib

/-!
Verification of the tfexplorer core against its specification.

The Go source is shallowly embedded: machine integers become `Nat`/`Int` with
explicit wrap-around where Go wraps (`uint64` subtraction), Go `float64` fields
become exact rationals (the claims under study are about which fields enter a
computation and at which rates, not about rounding of binary floats), fallible
code returns `Except`/`Option`, and the document store becomes an explicit
record of lists that every handler threads through.
-/

namespace TFExplorer

/-- The modulus of Go `uint64` arithmetic. -/
def U64MOD : Nat := 2 ^ 64

/-- Go `uint64` subtraction: `a - b` wraps modulo `2^64` (operands are assumed
to be below `2^64`, which every theorem carries as a hypothesis). -/
def sub64 (a b : Nat) : Nat := (a + U64MOD - b) % U64MOD

/-- Translated from `models/generated/directory/directory.go`: `ResourceAmount`
has an unsigned 64-bit `Cru` and `float64` `Mru`/`Hru`/`Sru` (embedded as
exact rationals). -/
structure ResourceAmount where
  Cru : Nat
  Mru : ℚ
  Hru : ℚ
  Sru : ℚ
deriving DecidableEq

/-- Translated from `ResourceAmount.Diff` in
`models/generated/directory/directory.go`, lines 220-228, field by field.
Note: the source computes the `Hru` component from `r.Mru - v.Hru`. -/
def ResourceAmount.Diff (r v : ResourceAmount) : ResourceAmount :=
  { Cru := sub64 r.Cru v.Cru
    Mru := r.Mru - v.Mru
    Hru := r.Mru - v.Hru
    Sru := r.Sru - v.Sru }

/-- Modelled from the spec: "The spec defines `Diff` as component-wise
subtraction" (§9, open questions); each field of the result is the
subtraction of the corresponding field of `v` from `r`. -/
def ResourceAmount.diffComponentwise (r v : ResourceAmount) : ResourceAmount :=
  { Cru := sub64 r.Cru v.Cru
    Mru := r.Mru - v.Mru
    Hru := r.Hru - v.Hru
    Sru := r.Sru - v.Sru }

/-! ## Signing requests and the legacy volume model -/

/-- Translated from the generated workloads models: a signing request is a set
of signer ids together with a quorum minimum. -/
structure SigningRequest where
  signers : List Int
  quorumMin : Int
deriving DecidableEq

/-- Translated from the legacy `Volume` model in
`models/generated/workloads/volume.go` (second, legacy declaration): the
fields consulted by its getters. -/
structure LegacyVolume where
  workloadId : Int
  nodeId : String
  size : Int
  customerTid : Int
  signingRequestProvision : SigningRequest
  signingRequestDelete : SigningRequest
deriving DecidableEq

/-- Translated from the legacy `Volume.GetSigningRequestDelete`
(`volume.go`, lines 181-183): its body is the bare self-call
`return v.GetSigningRequestDelete()`.  The `fuel` argument models the finite
call stack; running out of fuel models the stack overflow, and because the
body makes no progress, no amount of fuel ever yields a value. -/
def LegacyVolume.getSigningRequestDelete (v : LegacyVolume) : Nat → Option SigningRequest
  | 0 => none
  | n + 1 => v.getSigningRequestDelete n

/-! ## Resource-unit conversion (pkg/capacity) -/

/-- Translated from the `workloads.RSU` shape used by
`models/generated/workloads/k8s.go` and `pkg/capacity/conversion_test.go`:
`CRU` is an `int64`, the others `float64`. -/
structure RSU where
  CRU : Int
  MRU : ℚ
  SRU : ℚ
  HRU : ℚ
deriving DecidableEq

/-- One row of the conversion test table. -/
structure ConvVector where
  rsu : RSU
  cu : ℚ
  su : ℚ
deriving DecidableEq

/-- Translated from `TestCloudUnitsFromResourceUnits`
(`pkg/capacity/conversion_test.go`, lines 12-96): the nine expected
input/output pairs of the converter, verbatim. -/
def conversionTestVectors : List ConvVector :=
  [ ⟨{ CRU := 1, MRU := 1, SRU := 0, HRU := 0 }, 1/4, 0⟩
  , ⟨{ CRU := 2, MRU := 4, SRU := 0, HRU := 0 }, 1, 0⟩
  , ⟨{ CRU := 4, MRU := 8, SRU := 0, HRU := 0 }, 2, 0⟩
  , ⟨{ CRU := 4, MRU := 64, SRU := 0, HRU := 0 }, 2, 0⟩
  , ⟨{ CRU := 4, MRU := 32, SRU := 0, HRU := 0 }, 2, 0⟩
  , ⟨{ CRU := 0, MRU := 0, SRU := 120, HRU := 1200 }, 0, 14/10⟩
  , ⟨{ CRU := 0, MRU := 0, SRU := 40, HRU := 1000 }, 0, 967/1000⟩
  , ⟨{ CRU := 0, MRU := 0, SRU := 1200, HRU := 0 }, 0, 4⟩
  , ⟨{ CRU := 0, MRU := 0, SRU := 0, HRU := 12000 }, 0, 10⟩ ]

/-- Rounding to the nearest thousandth, as the converter's test vector
`SRU = 40, HRU = 1000 -> 0.967` pins. -/
def round3 (x : ℚ) : ℚ := (round (x * 1000) : ℚ) / 1000

/-- Modelled from the spec: the claimed converter formulas of §4.1 taken
verbatim, `CU = min(CRU x 2, MRU) / 4` and `SU = HRU / 1200 + SRU / 200`
(the file `pkg/capacity/conversion.go` that implements the converter is not
in the source tree; this definition follows the spec's words and is compared
against the repository's test table). -/
def cloudUnitsClaimFormula (r : RSU) : ℚ × ℚ :=
  (min (2 * (r.CRU : ℚ)) r.MRU / 4, r.HRU / 1200 + r.SRU / 200)

/-- Modelled from the spec: `CloudUnitsFromResourceUnits`
(`pkg/capacity/conversion.go` is not in the source tree; only its test is).
`CU` follows the spec's formula `min(CRU x 2, MRU) / 4`; `SU` follows the
rates the repository's test vectors pin, `HRU / 1200 + SRU / 300`, both
rounded to the nearest thousandth — the spec's written rate `SRU / 200`
contradicts the test table. -/
def CloudUnitsFromResourceUnits (r : RSU) : ℚ × ℚ :=
  (round3 (min (2 * (r.CRU : ℚ)) r.MRU / 4), round3 (r.HRU / 1200 + r.SRU / 300))

/-! ## Nodes and the kubernetes custom size -/

/-- Translated from `directory.Node` (the fields the embedded handlers
consult). -/
structure Node where
  id : Int
  nodeId : String
  farmId : Int
  totalResources : ResourceAmount
  reservedResources : ResourceAmount
  usedResources : ResourceAmount
  freeToUse : Bool
  deleted : Bool
deriving DecidableEq

/-- Modelled from the spec (§7, §4.9): the `mw` response-wrapper package is
not under the source tree; the spec fixes the HTTP status of each error
kind: validation 400, auth 401, ownership 403, not-found 404, payment
required 402, conflict 409, server fault 500, success on create 201. -/
inductive Response where
  | badRequest (msg : String)
  | unAuthorized (msg : String)
  | forbidden (msg : String)
  | notFound (msg : String)
  | conflict (msg : String)
  | paymentRequired (msg : String)
  | serverError (msg : String)
  | created
  | okResp
deriving DecidableEq

/-- The HTTP status code of each response kind (spec §7). -/
def Response.statusCode : Response → Nat
  | .badRequest _ => 400
  | .unAuthorized _ => 401
  | .forbidden _ => 403
  | .notFound _ => 404
  | .conflict _ => 409
  | .paymentRequired _ => 402
  | .serverError _ => 500
  | .created => 201
  | .okResp => 200

/-- Translated from `workloads.K8SCustomSize`
(`models/generated/workloads/k8s.go`): `CRU int64`, `MRU float64`,
`SRU float64`. -/
structure K8SCustomSize where
  CRU : Int
  MRU : ℚ
  SRU : ℚ
deriving DecidableEq

/-- Translated from the body of `getMaxNodeCapacity`
(`pkg/workloads/reservation.go`, lines 1373-1391) after the node fetch: the
residual is `node.TotalResources.Diff(node.ReservedResources)` and the node
is rejected with 409 only when the residual `Cru` is exactly 0 or the
residual `Mru` is not positive; otherwise the custom size is the residual
`Cru` and `Mru` with `SRU` fixed to 50. -/
def maxNodeCapacity (node : Node) : Except Response K8SCustomSize :=
  let resources := node.totalResources.Diff node.reservedResources
  if resources.Cru = 0 ∨ resources.Mru ≤ 0 then
    .error (.conflict "selected node does not have enough resources")
  else
    .ok { CRU := (resources.Cru : Int), MRU := resources.Mru, SRU := 50 }

/-! ## Workloads, signatures, and the sign-provision flow -/

/-- Translated from `NextActionEnum` in the generated workload models. -/
inductive NextAction where
  | create | sign | pay | deploy | delete | deleted | invalid
deriving DecidableEq

/-- Translated from `SigningSignature` in the generated workload models. -/
structure SigningSignature where
  tid : Int
  signature : String
  epoch : Int
deriving DecidableEq

/-- The Go zero value of `SigningSignature`. -/
def SigningSignature.zero : SigningSignature := ⟨0, "", 0⟩

/-- Translated from the generated `Result` model (the fields the embedded
handlers touch). -/
structure WResult where
  workloadId : String
  state : Nat
  message : String
  dataJson : String
  signature : String
  epoch : Int
  nodeId : String
deriving DecidableEq

/-- The Go zero value of `Result`. -/
def WResult.zero : WResult := ⟨"", 0, "", "", "", 0, ""⟩

/-- Translated from `workloads.K8S` (`models/generated/workloads/k8s.go`):
the variant fields the embedded handlers consult. -/
structure K8SData where
  size : Int
  publicIP : Nat
  customSize : K8SCustomSize
deriving DecidableEq

/-- The workload variants, a tagged union over the `Workloader`
implementations; only the data the embedded handlers branch on is kept
(`publicIP` references for K8S and VirtualMachine, the claimed address for
PublicIP). -/
inductive WorkloadData where
  | k8s (d : K8SData)
  | virtualMachine (publicIP : Nat)
  | publicIPAddr (ipaddress : String)
  | volume (size : Int) (hdd : Bool)
  | other
deriving DecidableEq

/-- Translated from the common `ReservationInfo` header of the generated
workload models plus the variant payload. -/
structure WorkloaderType where
  id : Nat
  nodeId : String
  poolId : Int
  customerTid : Int
  customerSignature : String
  nextAction : NextAction
  signaturesProvision : List SigningSignature
  signaturesDelete : List SigningSignature
  signingRequestProvision : SigningRequest
  signingRequestDelete : SigningRequest
  signatureFarmer : SigningSignature
  result : WResult
  epoch : Int
  version : Int
  metadata : String
  data : WorkloadData
deriving DecidableEq

/-- Translated from `directory.NodeFilter.WithNodeID(...).Get`: the first
node whose `nodeId` matches. -/
def findNode (nodes : List Node) (nodeId : String) : Option Node :=
  nodes.find? fun n => decide (n.nodeId = nodeId)

/-- Translated from `handleKubernetesSize` (`pkg/workloads/reservation.go`,
lines 1393-1414): the custom size is always reset; for `size = -1` it is
filled from `getMaxNodeCapacity` of the workload's node (the node fetch of
`getMaxNodeCapacity` is inlined here, its body is `maxNodeCapacity`). -/
def handleKubernetesSize (nodes : List Node) (w : WorkloaderType) :
    Except Response WorkloaderType :=
  match w.data with
  | .k8s d0 =>
    let d := { d0 with customSize := { CRU := 0, MRU := 0, SRU := 0 } }
    if d.size = -1 then
      match findNode nodes w.nodeId with
      | none => .error (.notFound "node not found")
      | some node =>
        match maxNodeCapacity node with
        | .error resp => .error resp
        | .ok size => .ok { w with data := .k8s { d with customSize := size } }
    else .ok { w with data := .k8s d }
  | _ => .ok w

/-- Translated from `userCanSign` (`pkg/workloads/reservation.go`, lines
1466-1492): a signer outside the request's signer set is turned away with
401; a signer who already appears among the pushed signatures is turned away
with 400; otherwise the signature may proceed. -/
def userCanSign (userTid : Int) (req : SigningRequest)
    (signatures : List SigningSignature) : Option Response :=
  if userTid ∈ req.signers then
    if userTid ∈ signatures.map SigningSignature.tid then
      some (.badRequest "user has already signed the reservation for deletion")
    else
      none
  else
    some (.unAuthorized "signature not required for user")

/-- The environment of the sign-provision handler: outcomes of the phonebook
lookup and the signature verification (the curve is opaque per the spec). -/
structure SignEnv where
  userFound : Bool
  verifyOk : Bool
  now : Int
deriving DecidableEq

/-- Translated from `types.WorkloadPushSignature` as used by
`newSignProvision`: append the signature to the stored provision list. -/
def pushProvisionSignature (w : WorkloaderType) (sig : SigningSignature) :
    WorkloaderType :=
  { w with signaturesProvision := w.signaturesProvision ++ [sig] }

/-- Translated from `newSignProvision` (`pkg/workloads/reservation.go`, lines
1091-1146): lookup, state check, `userCanSign` gate, phonebook lookup,
signature verification, then the push.  The post-push pipeline re-read and
queue push are omitted: they do not touch the stored signature list.  The
result is the workload collection after the call together with the
response. -/
def newSignProvision (env : SignEnv) (workloads : List WorkloaderType)
    (resId : Nat) (sig : SigningSignature) : List WorkloaderType × Response :=
  match workloads.find? (fun x => decide (x.id = resId)) with
  | none => (workloads, .notFound "workload not found")
  | some w =>
    if w.nextAction ≠ .sign then
      (workloads, .unAuthorized "workload not expecting signatures")
    else
      match userCanSign sig.tid w.signingRequestProvision w.signaturesProvision with
      | some resp => (workloads, resp)
      | none =>
        if ¬ env.userFound then (workloads, .notFound "customer id not found")
        else if ¬ env.verifyOk then (workloads, .unAuthorized "failed to verify signature")
        else
          let sig2 := { sig with epoch := env.now }
          (workloads.map (fun x => if x.id = resId then pushProvisionSignature x sig2 else x),
           .created)

/-! ## The document store, the public-ip allocator and the create handler -/

/-- Translated from `phonebook.User` (the fields the handlers consult). -/
structure User where
  id : Int
  pubkey : String
  isTrustedChannel : Bool
deriving DecidableEq

/-- Translated from `directory.PublicIP` (the farm-side IP table row):
address, gateway and the owning reservation id (0 means free). -/
structure FarmIP where
  address : String
  gateway : String
  reservationId : Nat
deriving DecidableEq

/-- Translated from `directory.Farm` (the fields the handlers consult). -/
structure Farm where
  id : Int
  threebotId : Int
  name : String
  ipAddresses : List FarmIP
deriving DecidableEq

/-- One entry of the per-node queue collection (spec §4.6): a workload parked
for a node. -/
structure QueueEntry where
  nodeId : String
  workload : WorkloaderType
deriving DecidableEq

/-- A legacy composite `Reservation` (spec §3): a reservation-level id and
state over a list of per-node workloads. -/
structure LegacyReservation where
  id : Nat
  nextAction : NextAction
  items : List WorkloaderType
deriving DecidableEq

/-- A call to the capacity planner's accounting entry points; the embedded
handlers log these so that "AddUsedCapacity is not called" is a statement
about the log. -/
inductive PlannerCall where
  | addUsed (id : Nat)
  | removeUsed (id : Nat)
deriving DecidableEq

/-- The document store: one list per collection, the next server-assigned
workload id, and the planner-call log. -/
structure Db where
  users : List User
  nodes : List Node
  farms : List Farm
  workloads : List WorkloaderType
  reservations : List LegacyReservation
  queue : List QueueEntry
  nextWorkloadId : Nat
  plannerCalls : List PlannerCall
deriving DecidableEq

/-- Translated from `setWorkloadDelete` (`pkg/workloads/reservation.go`,
lines 1271-1279): set the stored workload's nextAction to Delete and push it
on the per-node queue (`types.WorkloadPush`; the queue collection follows
spec §4.6). -/
def setWorkloadDelete (db : Db) (w : WorkloaderType) : Db :=
  { db with
    workloads := db.workloads.map fun x =>
      if x.id = w.id then { x with nextAction := .delete } else x
    queue := db.queue ++ [⟨w.nodeId, { w with nextAction := .delete }⟩] }

/-- The farm-table update of a successful IP swap: the entry holding `addr`
with reservation id `old` is re-bound to `new`. -/
def applyFarmSwap (db : Db) (farmId : Int) (addr : String) (old new : Nat) : Db :=
  { db with farms := db.farms.map fun f =>
      if f.id = farmId then
        { f with ipAddresses := f.ipAddresses.map fun ip =>
            if ip.address = addr ∧ ip.reservationId = old then
              { ip with reservationId := new }
            else ip }
      else f }

/-- Modelled from the spec: `directory.FarmIPSwap` lives in
`pkg/directory/types`, which is not under the source tree; per §4.7/§5 the
farm entry's reservationId is atomically CAS-swapped from the expected
current holder to the new workload id, and the swap fails if the entry no
longer carries the expected id. -/
def farmIPSwap (db : Db) (farmId : Int) (addr : String) (old new : Nat) :
    Except Unit Db :=
  match db.farms.find? (fun f => decide (f.id = farmId)) with
  | none => .error ()
  | some farm =>
    match farm.ipAddresses.find?
        (fun ip => decide (ip.address = addr ∧ ip.reservationId = old)) with
    | none => .error ()
    | some _ => .ok (applyFarmSwap db farmId addr old new)

/-- Translated from `handlePublicIPReservation`
(`pkg/workloads/reservation.go`, lines 1281-1344): node and farm lookup,
address search; when the address is already bound to `swap ≠ 0`, the old
reservation is looked up by id `swap`, the NEW workload's pool id and
nextAction Deploy — no match answers 409 Conflict, a match is scheduled for
delete before the farm-side CAS swap. -/
def handlePublicIPReservation (db : Db) (w : WorkloaderType) (ipaddr : String) :
    Db × Option Response :=
  match findNode db.nodes w.nodeId with
  | none => (db, some (.badRequest "failed to retrieve node id for ip"))
  | some node =>
    match db.farms.find? (fun f => decide (f.id = node.farmId)) with
    | none => (db, some (.badRequest "failed to retrieve farm"))
    | some farm =>
      match farm.ipAddresses.find? (fun ip => decide (ip.address = ipaddr)) with
      | none => (db, some (.notFound "public ip not found in farm"))
      | some pubIP =>
        if pubIP.reservationId ≠ 0 then
          match db.workloads.find? (fun x =>
              decide (x.id = pubIP.reservationId ∧ x.poolId = w.poolId ∧
                x.nextAction = .deploy)) with
          | none => (db, some (.conflict "ip address already in use by another pool"))
          | some wl =>
            match farmIPSwap (setWorkloadDelete db wl) farm.id ipaddr
                pubIP.reservationId w.id with
            | .error _ => (setWorkloadDelete db wl, some (.conflict "farm ip swap failed"))
            | .ok db3 => (db3, none)
        else
          match farmIPSwap db farm.id ipaddr pubIP.reservationId w.id with
          | .error _ => (db, some (.conflict "farm ip swap failed"))
          | .ok db2 => (db2, none)

/-- Whether the workload is a PublicIP workload. -/
def isPublicIPWorkload (w : WorkloaderType) : Bool :=
  match w.data with
  | .publicIPAddr _ => true
  | _ => false

/-- Whether the workload's variant data references public-ip reservation
`ip` (the `WithPublicIP` filter of the store). -/
def referencesPublicIP (w : WorkloaderType) (ip : Nat) : Bool :=
  match w.data with
  | .k8s d => decide (d.publicIP = ip)
  | .virtualMachine p => decide (p = ip)
  | _ => false

/-- Translated from `checkPublicIPAvailablity`
(`pkg/workloads/reservation.go`, lines 1426-1464): a zero reference passes;
otherwise the referenced PublicIP workload must exist, be deployed and owned
by the caller, and no deployed workload of the caller may already reference
it. -/
def checkPublicIPAvailablity (db : Db) (publicIP : Nat) (userID : Int) :
    Option Response :=
  if publicIP = 0 then none
  else
    match db.workloads.find? (fun x =>
        decide (x.id = publicIP) && isPublicIPWorkload x &&
        decide (x.nextAction = NextAction.deploy) && decide (x.customerTid = userID)) with
    | none => some (.notFound "ip workload not found")
    | some _ =>
      match db.workloads.find? (fun x =>
          decide (x.customerTid = userID) && decide (x.nextAction = NextAction.deploy) &&
          referencesPublicIP x publicIP) with
      | some _ => some (.conflict "public ip is in use")
      | none => none

/-- The planner outcome kinds surfaced by `IsAllowed` / `HasCapacity`. -/
inductive PlannerErr where
  | poolNotFound
  | otherErr
deriving DecidableEq

/-- The environment of the create handler: the authenticated caller, and the
outcomes of the oracles the handler consults — body validation, signature
hex decoding, signature verification (an opaque curve per the spec), the
state pipeline of `pkg/workloads/types` (not under the source tree; it may
only rewrite `nextAction`, which `create` immediately forces back to
Create), and the capacity planner's `IsAllowed` / `HasCapacity` answers. -/
structure CreateEnv where
  requestUserId : Int
  validate : WorkloaderType → Bool
  hexOk : String → Bool
  verify : String → WorkloaderType → Bool
  pipelineNext : WorkloaderType → NextAction
  isAllowed : Except PlannerErr Bool
  hasCapacity : Except PlannerErr Bool
  now : Int

/-- Translated from the constant `lastestWorkloadVersion` (sic) of
`pkg/workloads/reservation.go`, line 67. -/
def lastestWorkloadVersion : Int := 2

/-- Translated from `create` (`pkg/workloads/reservation.go`, lines 84-94):
before validation the handler re-initializes the signature lists, the farmer
signature, the result, the id and the version, discarding whatever the
client sent in those fields. -/
def sanitizeSubmission (w : WorkloaderType) : WorkloaderType :=
  { w with signaturesProvision := [], signaturesDelete := [],
           signatureFarmer := .zero, result := .zero, id := 0,
           version := lastestWorkloadVersion }

/-- The kubernetes branch of `create` (lines 153-157): only Kubernetes
workloads run `handleKubernetesSize`. -/
def createK8sStep (db : Db) (w : WorkloaderType) : Except Response WorkloaderType :=
  match w.data with
  | .k8s _ => handleKubernetesSize db.nodes w
  | _ => .ok w

/-- The public-ip availability branch of `create` (lines 159-168): Kubernetes
and VirtualMachine workloads run `checkPublicIPAvailablity` on their
referenced public ip. -/
def createPublicIPCheck (db : Db) (w : WorkloaderType) (userID : Int) :
    Option Response :=
  match w.data with
  | .k8s d => checkPublicIPAvailablity db d.publicIP userID
  | .virtualMachine p => checkPublicIPAvailablity db p userID
  | _ => none

/-- Translated from the first half of `create`
(`pkg/workloads/reservation.go`, lines 69-168): field scrubbing, validation,
identity binding, phonebook lookup, signature decoding and verification,
epoch stamping, the pool-admission check, the kubernetes size fill and the
public-ip availability check — everything before the store write. -/
def createPreStore (env : CreateEnv) (db : Db) (w0 : WorkloaderType) :
    Except Response WorkloaderType :=
  let w1 := sanitizeSubmission w0
  if ¬ env.validate w1 then .error (.badRequest "invalid workload") else
  if w1.customerTid ≠ env.requestUserId then
    .error (.unAuthorized "request user identity does not match the reservation customer-tid") else
  let w2 := { w1 with nextAction := env.pipelineNext w1 }
  let w3 := { w2 with nextAction := .create }
  if w3.nextAction = .invalid ∨ w3.nextAction = .delete then
    .error (.badRequest "invalid request wrong status") else
  match db.users.find? (fun u => decide (u.id = w3.customerTid)) with
  | none => .error (.badRequest "cannot find user")
  | some user =>
    if ¬ env.hexOk w3.customerSignature then
      .error (.badRequest "invalid signature format, expecting hex encoded string") else
    if ¬ env.verify user.pubkey w3 then
      .error (.badRequest "failed to verify customer signature") else
    let w4 := { w3 with epoch := env.now }
    match env.isAllowed with
    | .error .poolNotFound => .error (.notFound "pool does not exist")
    | .error .otherErr => .error (.serverError "could not load the required capacity pool")
    | .ok false => .error (.forbidden "not allowed to deploy workload on this pool")
    | .ok true =>
      match createK8sStep db w4 with
      | .error resp => .error resp
      | .ok w5 =>
        match createPublicIPCheck db w5 env.requestUserId with
        | some resp => .error resp
        | none => .ok w5

/-- The public-ip allocation branch of `create` (lines 200-204): only
PublicIP workloads run `handlePublicIPReservation`. -/
def createIPAllocationStep (db : Db) (stored : WorkloaderType) :
    Db × Option Response :=
  match stored.data with
  | .publicIPAddr addr => handlePublicIPReservation db stored addr
  | _ => (db, none)

/-- The post-store half of `create` (lines 182-212), with the already-stored
workload and its server-assigned id as arguments: the `HasCapacity` outcome
decides between marking the stored workload Invalid with 402 Payment
Required and — after the public-ip allocation for PublicIP workloads —
scheduling it to deploy (`types.WorkloadToDeploy` follows the spec's
"immediately deploy"). -/
def createPostStore (env : CreateEnv) (db1 : Db) (newId : Nat)
    (stored : WorkloaderType) : Db × Option Nat × Response :=
  match env.hasCapacity with
  | .error _ => (db1, none, .serverError "could not load the required capacity pool")
  | .ok false =>
    ({ db1 with workloads := db1.workloads.map fun x =>
        if x.id = newId then { x with nextAction := .invalid } else x },
     some newId,
     .paymentRequired "pool needs additional capacity to support this workload")
  | .ok true =>
    match createIPAllocationStep db1 stored with
    | (db2, some resp) => (db2, none, resp)
    | (db2, none) =>
      ({ db2 with workloads := db2.workloads.map fun x =>
          if x.id = newId then { x with nextAction := .deploy } else x },
       some newId, .created)

/-- Translated from `create` (`pkg/workloads/reservation.go`, lines 69-213),
composing the pre-store half with the store write — which assigns the next
server id (`types.WorkloadCreate` follows the spec's server-assigned
monotonic ids) — and the post-store half.  The create path never calls
`AddUsedCapacity` / `RemoveUsedCapacity`, so the planner-call log is
threaded through untouched. -/
def create (env : CreateEnv) (db : Db) (w0 : WorkloaderType) :
    Db × Option Nat × Response :=
  match createPreStore env db w0 with
  | .error resp => (db, none, resp)
  | .ok w =>
    createPostStore env
      { db with workloads := db.workloads ++ [{ w with id := db.nextWorkloadId }],
                nextWorkloadId := db.nextWorkloadId + 1 }
      db.nextWorkloadId
      { w with id := db.nextWorkloadId }

/-- The server-owned header fields of a stored workload that the post-store
transitions never touch: everything except `nextAction`. -/
def sameHeader (a b : WorkloaderType) : Prop :=
  a.id = b.id ∧ a.signaturesProvision = b.signaturesProvision ∧
  a.signaturesDelete = b.signaturesDelete ∧
  a.signatureFarmer = b.signatureFarmer ∧ a.result = b.result ∧
  a.version = b.version

/-- A sample create environment whose oracles all pass and whose capacity
check answers false. -/
def c3Env : CreateEnv :=
  { requestUserId := 42, validate := fun _ => true, hexOk := fun _ => true,
    verify := fun _ _ => true, pipelineNext := fun _ => .create,
    isAllowed := .ok true, hasCapacity := .ok false, now := 1000 }

/-- The same environment with a passing capacity check. -/
def c10Env : CreateEnv :=
  { requestUserId := 42, validate := fun _ => true, hexOk := fun _ => true,
    verify := fun _ _ => true, pipelineNext := fun _ => .create,
    isAllowed := .ok true, hasCapacity := .ok true, now := 1000 }

/-- A sample store holding only the submitting user. -/
def c3Db : Db :=
  { users := [⟨42, "pk", false⟩], nodes := [], farms := [], workloads := [],
    reservations := [], queue := [], nextWorkloadId := 5, plannerCalls := [] }

/-- A sample volume submission carrying client-supplied junk in every
server-owned field. -/
def c3Sub : WorkloaderType :=
  { id := 123, nodeId := "n1", poolId := 1, customerTid := 42,
    customerSignature := "cafe", nextAction := .deploy,
    signaturesProvision := [⟨7, "aa", 0⟩], signaturesDelete := [⟨9, "bb", 0⟩],
    signingRequestProvision := ⟨[], 0⟩, signingRequestDelete := ⟨[], 0⟩,
    signatureFarmer := ⟨3, "cc", 0⟩, result := ⟨"x", 1, "m", "d", "s", 4, "n"⟩,
    epoch := 99, version := 7, metadata := "", data := .volume 1 false }

/-- The workload `createPreStore` produces on `c3Sub`. -/
def c3Pre : WorkloaderType :=
  { id := 0, nodeId := "n1", poolId := 1, customerTid := 42,
    customerSignature := "cafe", nextAction := .create,
    signaturesProvision := [], signaturesDelete := [],
    signingRequestProvision := ⟨[], 0⟩, signingRequestDelete := ⟨[], 0⟩,
    signatureFarmer := .zero, result := .zero,
    epoch := 1000, version := 2, metadata := "", data := .volume 1 false }

/-- A node of farm 7 used by the public-ip scenarios. -/
def c4Node : Node :=
  { id := 1, nodeId := "n1", farmId := 7,
    totalResources := ⟨0, 0, 0, 0⟩, reservedResources := ⟨0, 0, 0, 0⟩,
    usedResources := ⟨0, 0, 0, 0⟩, freeToUse := false, deleted := false }

/-- The deployed PublicIP workload of customer 42 on pool 1 currently holding
the address 203.0.113.7. -/
def c4Old : WorkloaderType :=
  { id := 10, nodeId := "n1", poolId := 1, customerTid := 42,
    customerSignature := "", nextAction := .deploy,
    signaturesProvision := [], signaturesDelete := [],
    signingRequestProvision := ⟨[], 0⟩, signingRequestDelete := ⟨[], 0⟩,
    signatureFarmer := .zero, result := .zero, epoch := 0, version := 2,
    metadata := "", data := .publicIPAddr "203.0.113.7" }

/-- A new PublicIP workload of the same customer 42 claiming the same
address, attached to a different pool (pool 2). -/
def c4New : WorkloaderType :=
  { id := 11, nodeId := "n1", poolId := 2, customerTid := 42,
    customerSignature := "", nextAction := .create,
    signaturesProvision := [], signaturesDelete := [],
    signingRequestProvision := ⟨[], 0⟩, signingRequestDelete := ⟨[], 0⟩,
    signatureFarmer := .zero, result := .zero, epoch := 0, version := 2,
    metadata := "", data := .publicIPAddr "203.0.113.7" }

/-- Farm 7, whose address 203.0.113.7 is bound to reservation 10. -/
def c4Farm : Farm :=
  { id := 7, threebotId := 0, name := "farm7",
    ipAddresses := [⟨"203.0.113.7", "203.0.113.1", 10⟩] }

/-- The store of the cross-pool swap scenario: the old holder sits on
pool 1, the claimant on pool 2, both owned by customer 42. -/
def c4Db : Db :=
  { users := [], nodes := [c4Node], farms := [c4Farm], workloads := [c4Old],
    reservations := [], queue := [], nextWorkloadId := 12, plannerCalls := [] }

/-- The old holder re-attached to pool 2 — the claimant's pool. -/
def c4OldSame : WorkloaderType := { c4Old with poolId := 2 }

/-- The store of the same-pool swap scenario. -/
def c4DbSame : Db := { c4Db with workloads := [c4OldSame] }

/-! ## The node dispatcher (GET /reservations/workloads/nodeId) -/

/-- Modelled from the spec (§4.6): `Reservation.Workloads(nodeID)` of
`pkg/workloads/types` (not under the source tree) expands a legacy composite
reservation into its per-node workloads; each exposed workload carries the
reservation's id and state. -/
def LegacyReservation.workloadsFor (r : LegacyReservation) (node : String) :
    List WorkloaderType :=
  (r.items.filter fun it => decide (it.nodeId = node)).map
    fun it => { it with id := r.id, nextAction := r.nextAction }

/-- Whether a legacy reservation holds a workload for the node (the
`WithNodeID` reservation filter). -/
def LegacyReservation.hasNode (r : LegacyReservation) (node : String) : Bool :=
  r.items.any fun it => decide (it.nodeId = node)

/-- Ascending reservation-id order. -/
def byId (a b : LegacyReservation) : Prop := a.id ≤ b.id

instance : DecidableRel byId := fun a b => inferInstanceAs (Decidable (a.id ≤ b.id))

instance : IsTotal LegacyReservation byId := ⟨fun a b => Nat.le_total a.id b.id⟩

instance : IsTrans LegacyReservation byId := ⟨fun _ _ _ => Nat.le_trans⟩

/-- Ascending workload-id order. -/
def wById (a b : WorkloaderType) : Prop := a.id ≤ b.id

instance : DecidableRel wById := fun a b => inferInstanceAs (Decidable (a.id ≤ b.id))

instance : IsTotal WorkloaderType wById := ⟨fun a b => Nat.le_total a.id b.id⟩

instance : IsTrans WorkloaderType wById := ⟨fun _ _ _ => Nat.le_trans⟩

/-- Translated from the legacy-reservation loop of `workloads`
(`pkg/workloads/reservation.go`, lines 585-608): reservations in state
Deploy or Delete contribute their per-node expansion, the cursor follows the
reservation id, and the loop stops once at least 200 workloads are
accumulated (checked only after a whole batch is appended). -/
def scanLegacy (node : String) :
    List LegacyReservation → List WorkloaderType → Nat →
    List WorkloaderType × Nat
  | [], acc, lastID => (acc, lastID)
  | r :: rs, acc, lastID =>
    if r.nextAction = .deploy ∨ r.nextAction = .delete then
      if 200 ≤ (acc ++ r.workloadsFor node).length then
        (acc ++ r.workloadsFor node, r.id)
      else scanLegacy node rs (acc ++ r.workloadsFor node) r.id
    else scanLegacy node rs acc lastID

/-- Translated from the new-style workload loop of `workloads` (lines
624-652): workloads in state Deploy or Delete are appended one by one, the
cursor follows the workload id, and the loop stops at 200.  (The loop's
re-write of `NextActionDelete` over an already-Delete workload is a no-op
and is elided.) -/
def scanNew :
    List WorkloaderType → List WorkloaderType → Nat →
    List WorkloaderType × Nat
  | [], acc, lastID => (acc, lastID)
  | x :: xs, acc, lastID =>
    if x.nextAction = .deploy ∨ x.nextAction = .delete then
      if 200 ≤ (acc ++ [x]).length then (acc ++ [x], x.id)
      else scanNew xs (acc ++ [x]) x.id
    else scanNew xs acc lastID

/-- The legacy reservations the poll scans: id at least `fromId`, holding a
workload for the node, in ascending id order (the store's find with the
id-ascending index; the filters of `pkg/workloads/types` are not under the
source tree and follow the spec's §4.6 ordering). -/
def legacyMatches (db : Db) (node : String) (fromId : Nat) :
    List LegacyReservation :=
  List.insertionSort byId
    (db.reservations.filter fun r => decide (fromId ≤ r.id) && r.hasNode node)

/-- The new-style workloads the poll scans from cursor `fromId`, in ascending
id order. -/
def newMatches (db : Db) (node : String) (fromId : Nat) : List WorkloaderType :=
  List.insertionSort wById
    (db.workloads.filter fun x => decide (fromId ≤ x.id) && decide (x.nodeId = node))

/-- Translated from `queued` (`pkg/workloads/reservation.go`, lines 532-554):
up to 200 entries of the per-node queue. -/
def queuedFor (db : Db) (node : String) : List WorkloaderType :=
  ((db.queue.filter fun e => decide (e.nodeId = node)).take 200).map
    QueueEntry.workload

/-- Modelled from the spec: `types.WorkloadsLastID` (not under the source
tree) yields "the largest known workload id so pollers advance" (§4.6). -/
def lastKnownWorkloadId (db : Db) : Nat :=
  db.workloads.foldl (fun m x => max m x.id) 0

/-- The two scans of the poll: legacy reservations first (returning early on
a full page), then new-style workloads from the advanced cursor. -/
def scansPage (db : Db) (node : String) (fromId : Nat) :
    List WorkloaderType × Nat :=
  match scanLegacy node (legacyMatches db node fromId) [] fromId with
  | (acc1, last1) =>
    if 200 ≤ acc1.length then (acc1, last1)
    else scanNew (newMatches db node last1) acc1 last1

/-- Translated from `workloads` (`pkg/workloads/reservation.go`, lines
556-686): the two scans, then — only when they produced nothing — the
per-node queue with the cursor advanced over the queued ids, and finally the
largest-known-id fallback for a fully empty page.  (The redundant
full-page re-check after the new-style scan returns the same pair in the
source and is elided.) -/
def workloadsPoll (db : Db) (node : String) (fromId : Nat) :
    List WorkloaderType × Nat :=
  match scansPage db node fromId with
  | (acc, lastID) =>
    if acc.isEmpty then
      if (queuedFor db node).isEmpty then ([], lastKnownWorkloadId db)
      else (queuedFor db node,
            (queuedFor db node).foldl (fun m x => max m x.id) lastID)
    else (acc, lastID)

/-- The largest per-node expansion among the stored legacy reservations
(1 when there are none): the amount by which a final legacy batch may push
the page past 200. -/
def maxLegacyBatch (db : Db) (node : String) : Nat :=
  (db.reservations.map fun r => (r.workloadsFor node).length).foldr max 1

/-- A deployed workload with id 50 parked on the queue of node n1. -/
def c5Queued : WorkloaderType :=
  { id := 50, nodeId := "n1", poolId := 1, customerTid := 42,
    customerSignature := "", nextAction := .deploy,
    signaturesProvision := [], signaturesDelete := [],
    signingRequestProvision := ⟨[], 0⟩, signingRequestDelete := ⟨[], 0⟩,
    signatureFarmer := .zero, result := .zero, epoch := 0, version := 2,
    metadata := "", data := .other }

/-- A store whose only content is the queued workload 50 for node n1. -/
def c5Db : Db :=
  { users := [], nodes := [], farms := [], workloads := [], reservations := [],
    queue := [⟨"n1", c5Queued⟩], nextWorkloadId := 60, plannerCalls := [] }

/-! ## Theorems: C1, C2, C8, C9 -/

/-- Evaluation rule for `round3`: if `x * 1000 + 1/2` lies in `[z, z + 1)` then
`round3 x = z / 1000`. -/
theorem round3_eq (x : ℚ) (z : ℤ) (h1 : (z : ℚ) ≤ x * 1000 + 1 / 2)
    (h2 : x * 1000 + 1 / 2 < z + 1) : round3 x = (z : ℚ) / 1000 := by
  unfold round3
  rw [round_eq, Int.floor_eq_iff.mpr ⟨h1, h2⟩]

/-- C1: the claim states that `Diff` is component-wise subtraction, in
particular that the `Hru` field of `r.Diff v` is `r.Hru - v.Hru`.  The code
computes it from `r.Mru` instead: for every pair the `Hru` component equals
`r.Mru - v.Hru`, and at `r = (Cru 0, Mru 5, Hru 3, Sru 0)`,
`v = (Cru 0, Mru 0, Hru 1, Sru 0)` the code yields `Hru = 4` where
component-wise subtraction yields `2`. -/
theorem C1_diff_is_not_componentwise :
    (∀ r v : ResourceAmount, (r.Diff v).Hru = r.Mru - v.Hru) ∧
    (ResourceAmount.Diff ⟨0, 5, 3, 0⟩ ⟨0, 0, 1, 0⟩).Hru = 4 ∧
    (ResourceAmount.diffComponentwise ⟨0, 5, 3, 0⟩ ⟨0, 0, 1, 0⟩).Hru = 2 ∧
    ResourceAmount.Diff ⟨0, 5, 3, 0⟩ ⟨0, 0, 1, 0⟩ ≠
      ResourceAmount.diffComponentwise ⟨0, 5, 3, 0⟩ ⟨0, 0, 1, 0⟩ := by
  refine ⟨fun r v => rfl,
    by norm_num [ResourceAmount.Diff],
    by norm_num [ResourceAmount.diffComponentwise], ?_⟩
  simp only [ResourceAmount.Diff, ResourceAmount.diffComponentwise, ne_eq,
    ResourceAmount.mk.injEq, not_and]
  intro _ _
  norm_num

/-- C2 counterexample: the claimed storage formula `SU = HRU/1200 + SRU/200`
yields `SU = 6` on the input with `SRU = 1200` and all other fields zero,
but the repository's conversion test table fixes the converter's output on
exactly that input to `SU = 4`. -/
theorem C2_spec_su_formula_contradicts_tests :
    (cloudUnitsClaimFormula { CRU := 0, MRU := 0, SRU := 1200, HRU := 0 }).2 = 6 ∧
    (⟨{ CRU := 0, MRU := 0, SRU := 1200, HRU := 0 }, 0, 4⟩ : ConvVector) ∈
      conversionTestVectors ∧
    (6 : ℚ) ≠ 4 := by
  refine ⟨by norm_num [cloudUnitsClaimFormula], by simp [conversionTestVectors], by norm_num⟩

/-- C2 amended: the converter computes `CU = min(CRU x 2, MRU) / 4` and
`SU = HRU / 1200 + SRU / 300`, each rounded to the nearest thousandth; this
reproduces every row of the repository's conversion test table (in
particular `SRU = 1200` alone yields `SU = 4`). -/
theorem C2_converter_matches_test_table :
    (conversionTestVectors.all fun t =>
      decide (CloudUnitsFromResourceUnits t.rsu = (t.cu, t.su))) = true := by
  have h967 : round ((2900 : ℚ) / 3) = 967 := by
    rw [round_eq, Int.floor_eq_iff]
    constructor <;> norm_num
  simp only [conversionTestVectors, List.all_cons, List.all_nil, Bool.and_true,
    Bool.and_eq_true, decide_eq_true_eq]
  refine ⟨?_, ?_, ?_, ?_, ?_, ?_, ?_, ?_, ?_⟩ <;>
    norm_num [CloudUnitsFromResourceUnits, round3, min_def, Prod.ext_iff,
      round_ofNat, round_zero, round_one, h967]

/-- C8: the legacy `Volume.GetSigningRequestDelete` never terminates with the
stored field (or any value at all): its body is a bare self-call, so every
finite call stack is exhausted without returning.  The correct behavior per
the spec is to return the stored `signingRequestDelete` field. -/
theorem C8_legacy_get_signing_request_delete_diverges :
    ∀ (v : LegacyVolume) (fuel : Nat),
      v.getSigningRequestDelete fuel = none ∧
      v.getSigningRequestDelete fuel ≠ some v.signingRequestDelete := by
  intro v fuel
  induction fuel with
  | zero => exact ⟨rfl, by simp [LegacyVolume.getSigningRequestDelete]⟩
  | succ n ih =>
      exact ⟨by simpa [LegacyVolume.getSigningRequestDelete] using ih.1,
             by simpa [LegacyVolume.getSigningRequestDelete] using ih.2⟩

/-- C9: because `Cru` is an unsigned 64-bit integer, when `v.Cru > r.Cru` the
code's `r.Diff(v).Cru` is `(r.Cru - v.Cru) mod 2^64`, a strictly positive
value; consequently `getMaxNodeCapacity`, whose guard rejects only a residual
`Cru` of exactly 0, accepts every node whose reserved CRU exceeds its total
CRU (when the residual Mru is positive). -/
theorem C9_diff_cru_wraps_and_guard_accepts (r v : ResourceAmount)
    (hr : r.Cru < U64MOD) (hv : v.Cru < U64MOD) (hlt : r.Cru < v.Cru) :
    ((r.Diff v).Cru : ℤ) = ((r.Cru : ℤ) - (v.Cru : ℤ)) % (2 ^ 64 : ℤ) ∧
    0 < (r.Diff v).Cru ∧
    ∀ node : Node, node.totalResources = r → node.reservedResources = v →
      0 < r.Mru - v.Mru →
      maxNodeCapacity node =
        .ok { CRU := ((r.Diff v).Cru : Int), MRU := r.Mru - v.Mru, SRU := 50 } := by
  have hmod : U64MOD = 2 ^ 64 := rfl
  have hsub : (r.Diff v).Cru = (r.Cru + U64MOD - v.Cru) % U64MOD := rfl
  have hlt2 : r.Cru + U64MOD - v.Cru < U64MOD := by omega
  have hpos : 0 < r.Cru + U64MOD - v.Cru := by omega
  have hval : (r.Diff v).Cru = r.Cru + U64MOD - v.Cru := by
    rw [hsub, Nat.mod_eq_of_lt hlt2]
  refine ⟨?_, ?_, ?_⟩
  · rw [hval]
    have : ((r.Cru + U64MOD - v.Cru : Nat) : ℤ) =
        (r.Cru : ℤ) + (U64MOD : ℤ) - (v.Cru : ℤ) := by
      omega
    rw [this]
    rw [hmod] at hr hv ⊢
    push_cast
    omega
  · omega
  · intro node ht hres hm
    have hcru : (r.Diff v).Cru ≠ 0 := by omega
    simp only [maxNodeCapacity, ht, hres]
    have hguard : ¬((r.Diff v).Cru = 0 ∨ (r.Diff v).Mru ≤ 0) := by
      push_neg
      exact ⟨hcru, by simpa [ResourceAmount.Diff] using hm⟩
    simp only [hguard, if_false]
    rfl

/-- C9 witness: a node with total CRU 4 and reserved CRU 6 wraps to a residual
CRU of `2^64 - 2` and is accepted by the capacity guard. -/
theorem C9_witness :
    (⟨4, 10, 0, 0⟩ : ResourceAmount).Cru < U64MOD ∧
    (⟨6, 3, 0, 0⟩ : ResourceAmount).Cru < U64MOD ∧
    (⟨4, 10, 0, 0⟩ : ResourceAmount).Cru < (⟨6, 3, 0, 0⟩ : ResourceAmount).Cru ∧
    (((⟨4, 10, 0, 0⟩ : ResourceAmount).Diff ⟨6, 3, 0, 0⟩).Cru : ℤ) =
      ((4 : ℤ) - 6) % (2 ^ 64 : ℤ) ∧
    maxNodeCapacity
        { id := 1, nodeId := "n1", farmId := 7,
          totalResources := ⟨4, 10, 0, 0⟩,
          reservedResources := ⟨6, 3, 0, 0⟩,
          usedResources := ⟨0, 0, 0, 0⟩,
          freeToUse := false, deleted := false } =
      .ok { CRU := (((⟨4, 10, 0, 0⟩ : ResourceAmount).Diff ⟨6, 3, 0, 0⟩).Cru : Int),
            MRU := (10 : ℚ) - 3, SRU := 50 } := by
  have h := C9_diff_cru_wraps_and_guard_accepts ⟨4, 10, 0, 0⟩ ⟨6, 3, 0, 0⟩
    (by decide) (by decide) (by decide)
  exact ⟨by decide, by decide, by decide, h.1,
    h.2.2 { id := 1, nodeId := "n1", farmId := 7,
            totalResources := ⟨4, 10, 0, 0⟩,
            reservedResources := ⟨6, 3, 0, 0⟩,
            usedResources := ⟨0, 0, 0, 0⟩,
            freeToUse := false, deleted := false } rfl rfl (by norm_num)⟩

/-- C6: for a Kubernetes workload with size -1 whose node is found, the
admission path computes the residual `total.Diff(reserved)`; when the
residual Cru is 0 or the residual Mru is not positive it answers 409
Conflict, otherwise it binds `customSize` to the residual Cru and Mru with
SRU fixed to 50. -/
theorem C6_k8s_custom_size_from_residual (nodes : List Node) (w : WorkloaderType)
    (d : K8SData) (node : Node) (hd : w.data = .k8s d) (hsize : d.size = -1)
    (hnode : findNode nodes w.nodeId = some node) :
    (((node.totalResources.Diff node.reservedResources).Cru = 0 ∨
        (node.totalResources.Diff node.reservedResources).Mru ≤ 0) →
      handleKubernetesSize nodes w =
        .error (.conflict "selected node does not have enough resources") ∧
      (Response.conflict "selected node does not have enough resources").statusCode = 409) ∧
    (¬((node.totalResources.Diff node.reservedResources).Cru = 0 ∨
        (node.totalResources.Diff node.reservedResources).Mru ≤ 0) →
      handleKubernetesSize nodes w =
        .ok { w with data := .k8s { d with customSize :=
          { CRU := ((node.totalResources.Diff node.reservedResources).Cru : Int),
            MRU := (node.totalResources.Diff node.reservedResources).Mru,
            SRU := 50 } } }) := by
  constructor
  · intro hguard
    refine ⟨?_, rfl⟩
    simp only [handleKubernetesSize, hd, hsize, hnode, maxNodeCapacity]
    rw [if_pos hguard]
    simp
  · intro hguard
    simp only [handleKubernetesSize, hd, hsize, hnode, maxNodeCapacity]
    rw [if_neg hguard]
    simp

/-- C6 witness: a node with total (Cru 4, Mru 10) and reserved (Cru 1, Mru 3)
yields a custom size of CRU 3, MRU 7, SRU 50 for a size -1 Kubernetes
workload. -/
theorem C6_witness :
    handleKubernetesSize
        [{ id := 1, nodeId := "n1", farmId := 7,
           totalResources := ⟨4, 10, 0, 0⟩, reservedResources := ⟨1, 3, 0, 0⟩,
           usedResources := ⟨0, 0, 0, 0⟩, freeToUse := false, deleted := false }]
        { id := 0, nodeId := "n1", poolId := 1, customerTid := 42,
          customerSignature := "", nextAction := .create,
          signaturesProvision := [], signaturesDelete := [],
          signingRequestProvision := ⟨[], 0⟩, signingRequestDelete := ⟨[], 0⟩,
          signatureFarmer := .zero, result := .zero, epoch := 0, version := 2,
          metadata := "", data := .k8s ⟨-1, 0, ⟨0, 0, 0⟩⟩ } =
      .ok { id := 0, nodeId := "n1", poolId := 1, customerTid := 42,
            customerSignature := "", nextAction := .create,
            signaturesProvision := [], signaturesDelete := [],
            signingRequestProvision := ⟨[], 0⟩, signingRequestDelete := ⟨[], 0⟩,
            signatureFarmer := .zero, result := .zero, epoch := 0, version := 2,
            metadata := "",
            data := .k8s ⟨-1, 0, ⟨3, (10 : ℚ) - 3, 50⟩⟩ } := by
  have h := (C6_k8s_custom_size_from_residual
    [{ id := 1, nodeId := "n1", farmId := 7,
       totalResources := ⟨4, 10, 0, 0⟩, reservedResources := ⟨1, 3, 0, 0⟩,
       usedResources := ⟨0, 0, 0, 0⟩, freeToUse := false, deleted := false }]
    { id := 0, nodeId := "n1", poolId := 1, customerTid := 42,
      customerSignature := "", nextAction := .create,
      signaturesProvision := [], signaturesDelete := [],
      signingRequestProvision := ⟨[], 0⟩, signingRequestDelete := ⟨[], 0⟩,
      signatureFarmer := .zero, result := .zero, epoch := 0, version := 2,
      metadata := "", data := .k8s ⟨-1, 0, ⟨0, 0, 0⟩⟩ }
    ⟨-1, 0, ⟨0, 0, 0⟩⟩
    { id := 1, nodeId := "n1", farmId := 7,
      totalResources := ⟨4, 10, 0, 0⟩, reservedResources := ⟨1, 3, 0, 0⟩,
      usedResources := ⟨0, 0, 0, 0⟩, freeToUse := false, deleted := false }
    rfl rfl (by simp [findNode])).2 (by push_neg; constructor <;> norm_num [ResourceAmount.Diff, sub64, U64MOD])
  exact h

/-- C7: a provision signature by a tid that already appears among the stored
provision signatures is rejected with 400 Bad Request and the stored
collection is unchanged, and a signature by a tid outside the signing
request's signer set is rejected (401) with the collection unchanged. -/
theorem C7_duplicate_or_foreign_signature_rejected (env : SignEnv)
    (workloads : List WorkloaderType) (resId : Nat) (sig : SigningSignature)
    (w : WorkloaderType)
    (hfind : workloads.find? (fun x => decide (x.id = resId)) = some w)
    (hsign : w.nextAction = .sign) :
    (sig.tid ∈ w.signingRequestProvision.signers →
      sig.tid ∈ w.signaturesProvision.map SigningSignature.tid →
      newSignProvision env workloads resId sig =
        (workloads, .badRequest "user has already signed the reservation for deletion") ∧
      (Response.badRequest "user has already signed the reservation for deletion").statusCode
        = 400) ∧
    (sig.tid ∉ w.signingRequestProvision.signers →
      newSignProvision env workloads resId sig =
        (workloads, .unAuthorized "signature not required for user") ∧
      (Response.unAuthorized "signature not required for user").statusCode = 401) := by
  constructor
  · intro hin hdup
    refine ⟨?_, rfl⟩
    simp only [newSignProvision, hfind, hsign, ne_eq, not_true_eq_false, if_false,
      userCanSign, if_pos hin, if_pos hdup]
  · intro hout
    refine ⟨?_, rfl⟩
    simp only [newSignProvision, hfind, hsign, ne_eq, not_true_eq_false, if_false,
      userCanSign, if_neg hout]

/-- C7 witness: on a workload in state Sign whose signer set is tid 7 and 9
and which already carries a signature by tid 7, a second push by tid 7 is
answered 400 with the collection unchanged, and a push by tid 5 is turned
away. -/
theorem C7_witness :
    (newSignProvision ⟨true, true, 0⟩
        [{ id := 3, nodeId := "n1", poolId := 1, customerTid := 7,
           customerSignature := "", nextAction := .sign,
           signaturesProvision := [⟨7, "aa", 0⟩], signaturesDelete := [],
           signingRequestProvision := ⟨[7, 9], 2⟩, signingRequestDelete := ⟨[], 0⟩,
           signatureFarmer := .zero, result := .zero, epoch := 0, version := 2,
           metadata := "", data := .other }] 3 ⟨7, "bb", 0⟩ =
      ([{ id := 3, nodeId := "n1", poolId := 1, customerTid := 7,
          customerSignature := "", nextAction := .sign,
          signaturesProvision := [⟨7, "aa", 0⟩], signaturesDelete := [],
          signingRequestProvision := ⟨[7, 9], 2⟩, signingRequestDelete := ⟨[], 0⟩,
          signatureFarmer := .zero, result := .zero, epoch := 0, version := 2,
          metadata := "", data := .other }],
       .badRequest "user has already signed the reservation for deletion")) ∧
    (Response.badRequest "user has already signed the reservation for deletion").statusCode
      = 400 :=
  (C7_duplicate_or_foreign_signature_rejected ⟨true, true, 0⟩
    [{ id := 3, nodeId := "n1", poolId := 1, customerTid := 7,
       customerSignature := "", nextAction := .sign,
       signaturesProvision := [⟨7, "aa", 0⟩], signaturesDelete := [],
       signingRequestProvision := ⟨[7, 9], 2⟩, signingRequestDelete := ⟨[], 0⟩,
       signatureFarmer := .zero, result := .zero, epoch := 0, version := 2,
       metadata := "", data := .other }] 3 ⟨7, "bb", 0⟩
    { id := 3, nodeId := "n1", poolId := 1, customerTid := 7,
      customerSignature := "", nextAction := .sign,
      signaturesProvision := [⟨7, "aa", 0⟩], signaturesDelete := [],
      signingRequestProvision := ⟨[7, 9], 2⟩, signingRequestDelete := ⟨[], 0⟩,
      signatureFarmer := .zero, result := .zero, epoch := 0, version := 2,
      metadata := "", data := .other }
    (by decide) rfl).1 (by decide) (by decide)

theorem sameHeader_refl (a : WorkloaderType) : sameHeader a a :=
  ⟨rfl, rfl, rfl, rfl, rfl, rfl⟩

theorem sameHeader_trans {a b c : WorkloaderType} (h1 : sameHeader a b)
    (h2 : sameHeader b c) : sameHeader a c := by
  obtain ⟨x1, x2, x3, x4, x5, x6⟩ := h1
  obtain ⟨y1, y2, y3, y4, y5, y6⟩ := h2
  exact ⟨x1.trans y1, x2.trans y2, x3.trans y3, x4.trans y4, x5.trans y5, x6.trans y6⟩

theorem mem_map_nextAction_if (l : List WorkloaderType) (c : Nat)
    (na : NextAction) {s : WorkloaderType} (hs : s ∈ l) :
    ∃ t ∈ l.map (fun x => if x.id = c then { x with nextAction := na } else x),
      sameHeader t s := by
  refine ⟨_, List.mem_map_of_mem _ hs, ?_⟩
  by_cases h : s.id = c <;> simp [h, sameHeader]

theorem farmIPSwap_ok_workloads {db : Db} {f : Int} {a : String} {o n : Nat}
    {db2 : Db} (h : farmIPSwap db f a o n = .ok db2) :
    db2.workloads = db.workloads := by
  unfold farmIPSwap at h
  split at h
  · exact absurd h (by simp)
  · split at h
    · exact absurd h (by simp)
    · simp only [Except.ok.injEq] at h
      subst h
      rfl

theorem handlePublicIPReservation_mem (db : Db) (w : WorkloaderType)
    (addr : String) {s : WorkloaderType} (hs : s ∈ db.workloads) :
    ∃ t ∈ (handlePublicIPReservation db w addr).1.workloads, sameHeader t s := by
  unfold handlePublicIPReservation
  split
  · exact ⟨s, hs, sameHeader_refl s⟩
  split
  · exact ⟨s, hs, sameHeader_refl s⟩
  split
  · exact ⟨s, hs, sameHeader_refl s⟩
  split
  · split
    · exact ⟨s, hs, sameHeader_refl s⟩
    · split
      · simpa [setWorkloadDelete] using
          mem_map_nextAction_if db.workloads _ .delete hs
      · rename_i db3 hswap
        show ∃ t ∈ db3.workloads, sameHeader t s
        rw [farmIPSwap_ok_workloads hswap]
        simpa [setWorkloadDelete] using
          mem_map_nextAction_if db.workloads _ .delete hs
  · split
    · exact ⟨s, hs, sameHeader_refl s⟩
    · rename_i db2 hswap
      show ∃ t ∈ db2.workloads, sameHeader t s
      rw [farmIPSwap_ok_workloads hswap]
      exact ⟨s, hs, sameHeader_refl s⟩

theorem createIPAllocationStep_mem (db : Db) (stored : WorkloaderType)
    {s : WorkloaderType} (hs : s ∈ db.workloads) :
    ∃ t ∈ (createIPAllocationStep db stored).1.workloads, sameHeader t s := by
  unfold createIPAllocationStep
  split
  · exact handlePublicIPReservation_mem db stored _ hs
  · exact ⟨s, hs, sameHeader_refl s⟩

theorem createPostStore_persists (env : CreateEnv) (db1 : Db) (newId : Nat)
    (stored : WorkloaderType) (n : Nat) (hmem : stored ∈ db1.workloads)
    (hn : (createPostStore env db1 newId stored).2.1 = some n) :
    n = newId ∧
    ∃ t ∈ (createPostStore env db1 newId stored).1.workloads,
      sameHeader t stored := by
  cases hcap : env.hasCapacity with
  | error e =>
    have heq : createPostStore env db1 newId stored =
        (db1, none, .serverError "could not load the required capacity pool") := by
      simp only [createPostStore, hcap]
    rw [heq] at hn
    simp at hn
  | ok b =>
    cases b with
    | false =>
      have heq : createPostStore env db1 newId stored =
          ({ db1 with workloads := db1.workloads.map fun x =>
              if x.id = newId then { x with nextAction := .invalid } else x },
           some newId,
           .paymentRequired "pool needs additional capacity to support this workload") := by
        simp only [createPostStore, hcap]
      rw [heq] at hn ⊢
      simp only [Option.some.injEq] at hn
      exact ⟨hn.symm, mem_map_nextAction_if db1.workloads newId .invalid hmem⟩
    | true =>
      rcases hip : createIPAllocationStep db1 stored with ⟨db2, o⟩
      cases o with
      | some resp =>
        have heq : createPostStore env db1 newId stored = (db2, none, resp) := by
          simp only [createPostStore, hcap, hip]
        rw [heq] at hn
        simp at hn
      | none =>
        have heq : createPostStore env db1 newId stored =
            ({ db2 with workloads := db2.workloads.map fun x =>
                if x.id = newId then { x with nextAction := .deploy } else x },
             some newId, .created) := by
          simp only [createPostStore, hcap, hip]
        rw [heq] at hn ⊢
        simp only [Option.some.injEq] at hn
        refine ⟨hn.symm, ?_⟩
        obtain ⟨t, ht, hsame⟩ := createIPAllocationStep_mem db1 stored hmem
        rw [hip] at ht
        obtain ⟨t2, ht2, hsame2⟩ :=
          mem_map_nextAction_if db2.workloads newId .deploy ht
        exact ⟨t2, ht2, sameHeader_trans hsame2 hsame⟩

theorem handleKubernetesSize_header (nodes : List Node) (w w' : WorkloaderType)
    (h : handleKubernetesSize nodes w = .ok w') :
    w'.id = w.id ∧ w'.signaturesProvision = w.signaturesProvision ∧
    w'.signaturesDelete = w.signaturesDelete ∧
    w'.signatureFarmer = w.signatureFarmer ∧ w'.result = w.result ∧
    w'.version = w.version := by
  unfold handleKubernetesSize at h
  split at h
  · dsimp only at h
    split at h
    · split at h
      · exact absurd h (by simp)
      · split at h
        · exact absurd h (by simp)
        · simp only [Except.ok.injEq] at h
          subst h
          exact ⟨rfl, rfl, rfl, rfl, rfl, rfl⟩
    · simp only [Except.ok.injEq] at h
      subst h
      exact ⟨rfl, rfl, rfl, rfl, rfl, rfl⟩
  · simp only [Except.ok.injEq] at h
    subst h
    exact ⟨rfl, rfl, rfl, rfl, rfl, rfl⟩

theorem createK8sStep_header (db : Db) (w w' : WorkloaderType)
    (h : createK8sStep db w = .ok w') :
    w'.id = w.id ∧ w'.signaturesProvision = w.signaturesProvision ∧
    w'.signaturesDelete = w.signaturesDelete ∧
    w'.signatureFarmer = w.signatureFarmer ∧ w'.result = w.result ∧
    w'.version = w.version := by
  unfold createK8sStep at h
  split at h
  · exact handleKubernetesSize_header db.nodes w w' h
  · simp only [Except.ok.injEq] at h
    subst h
    exact ⟨rfl, rfl, rfl, rfl, rfl, rfl⟩

theorem createPreStore_fields (env : CreateEnv) (db : Db) (w0 w : WorkloaderType)
    (h : createPreStore env db w0 = .ok w) :
    w.signaturesProvision = [] ∧ w.signaturesDelete = [] ∧
    w.signatureFarmer = .zero ∧ w.result = .zero ∧ w.id = 0 ∧
    w.version = lastestWorkloadVersion := by
  simp only [createPreStore, sanitizeSubmission] at h
  split at h
  · exact absurd h (by simp)
  split at h
  · exact absurd h (by simp)
  split at h
  · exact absurd h (by simp)
  split at h
  · exact absurd h (by simp)
  split at h
  · exact absurd h (by simp)
  split at h
  · exact absurd h (by simp)
  split at h
  · exact absurd h (by simp)
  · exact absurd h (by simp)
  · exact absurd h (by simp)
  · split at h
    · exact absurd h (by simp)
    · rename_i w5 hstep
      split at h
      · exact absurd h (by simp)
      · simp only [Except.ok.injEq] at h
        subst h
        obtain ⟨h1, h2, h3, h4, h5, h6⟩ := createK8sStep_header db _ w5 hstep
        exact ⟨by rw [h2], by rw [h3], by rw [h4], by rw [h5], by rw [h1], by rw [h6]⟩

/-- C3: once a submission clears validation, identity binding, signature
verification, pool admission, the kubernetes size fill and the public-ip
availability check (`createPreStore` answers ok) and `HasCapacity` answers
false, the handler persists the workload, flips its `nextAction` to
Invalid, answers 402 Payment Required, and never calls `AddUsedCapacity`
(the planner-call log is unchanged). -/
theorem C3_insufficient_capacity_invalid_402 (env : CreateEnv) (db : Db)
    (w0 w : WorkloaderType) (hpre : createPreStore env db w0 = .ok w)
    (hcap : env.hasCapacity = .ok false) :
    create env db w0 =
      ({ db with
          workloads := (db.workloads ++ [{ w with id := db.nextWorkloadId }]).map
            fun (x : WorkloaderType) =>
              if x.id = db.nextWorkloadId then { x with nextAction := .invalid }
              else x,
          nextWorkloadId := db.nextWorkloadId + 1 },
       some db.nextWorkloadId,
       .paymentRequired "pool needs additional capacity to support this workload") ∧
    (Response.paymentRequired
      "pool needs additional capacity to support this workload").statusCode = 402 ∧
    (create env db w0).1.plannerCalls = db.plannerCalls ∧
    (∃ s ∈ (create env db w0).1.workloads,
      s.id = db.nextWorkloadId ∧ s.nextAction = .invalid) ∧
    (∀ s ∈ (create env db w0).1.workloads,
      s.id = db.nextWorkloadId → s.nextAction = .invalid) := by
  have hc : create env db w0 =
      ({ db with
          workloads := (db.workloads ++ [{ w with id := db.nextWorkloadId }]).map
            fun (x : WorkloaderType) =>
              if x.id = db.nextWorkloadId then { x with nextAction := .invalid }
              else x,
          nextWorkloadId := db.nextWorkloadId + 1 },
       some db.nextWorkloadId,
       .paymentRequired "pool needs additional capacity to support this workload") := by
    simp only [create, hpre, createPostStore, hcap]
  refine ⟨hc, rfl, by rw [hc], ?_, ?_⟩
  · rw [hc]
    refine ⟨_, List.mem_map_of_mem _
      (List.mem_append_right _ (List.mem_singleton_self _)), ?_⟩
    simp
  · rw [hc]
    intro s hsm hid
    obtain ⟨y, hy, rfl⟩ := List.mem_map.mp hsm
    by_cases hyid : y.id = db.nextWorkloadId
    · simp [hyid]
    · simp only [if_neg hyid] at hid ⊢
      exact absurd hid hyid

/-- C3 witness: a concrete volume submission that clears every check but the
capacity one is persisted as Invalid, answered 402, with the planner-call
log untouched. -/
theorem C3_witness :
    createPreStore c3Env c3Db c3Sub = .ok c3Pre ∧
    c3Env.hasCapacity = .ok false ∧
    (create c3Env c3Db c3Sub).2.2 =
      .paymentRequired "pool needs additional capacity to support this workload" ∧
    ((create c3Env c3Db c3Sub).2.2).statusCode = 402 ∧
    (create c3Env c3Db c3Sub).1.plannerCalls = c3Db.plannerCalls ∧
    ∃ s ∈ (create c3Env c3Db c3Sub).1.workloads,
      s.id = c3Db.nextWorkloadId ∧ s.nextAction = .invalid := by
  have h := C3_insufficient_capacity_invalid_402 c3Env c3Db c3Sub c3Pre (by rfl) rfl
  exact ⟨by rfl, rfl, by rw [h.1], by rw [h.1]; rfl, h.2.2.1, h.2.2.2.1⟩

/-- C10: whenever `create` persists a workload (it returns an id, both on the
201 and on the 402 path), the stored document carries empty provision and
delete signature lists, the zero farmer signature, the zero result, version
2, and the server-assigned id `db.nextWorkloadId` — whatever the client sent
in those fields. -/
theorem C10_server_owned_fields_scrubbed (env : CreateEnv) (db : Db)
    (w0 : WorkloaderType) (n : Nat) (hn : (create env db w0).2.1 = some n) :
    n = db.nextWorkloadId ∧
    ∃ s ∈ (create env db w0).1.workloads,
      s.id = db.nextWorkloadId ∧ s.signaturesProvision = [] ∧
      s.signaturesDelete = [] ∧ s.signatureFarmer = .zero ∧
      s.result = .zero ∧ s.version = lastestWorkloadVersion := by
  rcases hpre : createPreStore env db w0 with resp | w
  · rw [create, hpre] at hn
    simp at hn
  · obtain ⟨f1, f2, f3, f4, f5, f6⟩ := createPreStore_fields env db w0 w hpre
    have hcre : create env db w0 =
        createPostStore env
          { db with workloads := db.workloads ++ [{ w with id := db.nextWorkloadId }],
                    nextWorkloadId := db.nextWorkloadId + 1 }
          db.nextWorkloadId { w with id := db.nextWorkloadId } := by
      rw [create, hpre]
    rw [hcre] at hn ⊢
    have hmem : ({ w with id := db.nextWorkloadId } : WorkloaderType) ∈
        db.workloads ++ [{ w with id := db.nextWorkloadId }] :=
      List.mem_append_right _ (List.mem_singleton_self _)
    obtain ⟨hnid, t, ht, hsame⟩ :=
      createPostStore_persists env _ db.nextWorkloadId _ n hmem hn
    obtain ⟨g1, g2, g3, g4, g5, g6⟩ := hsame
    exact ⟨hnid, t, ht, g1, by rw [g2]; exact f1, by rw [g3]; exact f2,
      by rw [g4]; exact f3, by rw [g5]; exact f4, by rw [g6]; exact f6⟩

/-- C10 witness: the junk-carrying submission `c3Sub` is accepted (201 path)
and stored with scrubbed server-owned fields and the server id 5. -/
theorem C10_witness :
    (create c10Env c3Db c3Sub).2.1 = some 5 ∧ (5 : Nat) = c3Db.nextWorkloadId ∧
    ∃ s ∈ (create c10Env c3Db c3Sub).1.workloads,
      s.id = c3Db.nextWorkloadId ∧ s.signaturesProvision = [] ∧
      s.signaturesDelete = [] ∧ s.signatureFarmer = .zero ∧
      s.result = .zero ∧ s.version = lastestWorkloadVersion := by
  have h := C10_server_owned_fields_scrubbed c10Env c3Db c3Sub 5 (by rfl)
  exact ⟨by rfl, h.1, h.2⟩

theorem find?_strengthen {α : Type} {p q : α → Bool} {l : List α} {a : α}
    (h : l.find? p = some a) (hq : q a = true)
    (himp : ∀ x, q x = true → p x = true) : l.find? q = some a := by
  induction l with
  | nil => simp at h
  | cons x xs ih =>
    by_cases hp : p x = true
    · rw [List.find?_cons_of_pos _ hp] at h
      obtain rfl : x = a := by simpa using h
      rw [List.find?_cons_of_pos _ hq]
    · have hqx : q x = false := by
        cases hqv : q x
        · rfl
        · exact absurd (himp x hqv) hp
      rw [List.find?_cons_of_neg _ (by simpa using hp)] at h
      rw [List.find?_cons_of_neg _ (by simp [hqx])]
      exact ih h

/-- C4 counterexample: the old holder of 203.0.113.7 (reservation 10) and the
claimant both belong to customer 42, yet — because the old reservation sits
on pool 1 while the claimant sits on pool 2 — the allocation is rejected
with 409 Conflict and no state changes, refuting "succeeds iff r' belongs to
the same customer". -/
theorem C4_same_customer_cross_pool_conflict :
    handlePublicIPReservation c4Db c4New "203.0.113.7" =
      (c4Db, some (.conflict "ip address already in use by another pool")) ∧
    c4Old.customerTid = c4New.customerTid ∧
    c4Db.workloads = [c4Old] ∧ c4Old.id = 10 ∧
    c4Old.nextAction = .deploy ∧ c4Old.poolId = 1 ∧ c4New.poolId = 2 ∧
    c4Db.farms.map Farm.ipAddresses = [[⟨"203.0.113.7", "203.0.113.1", 10⟩]] ∧
    (Response.conflict "ip address already in use by another pool").statusCode = 409 :=
  ⟨rfl, rfl, rfl, rfl, rfl, rfl, rfl, rfl, rfl⟩

/-- C4 amended: for an already-bound address (`r' ≠ 0`), the allocation
succeeds iff `r'` identifies a workload with nextAction Deploy in the same
capacity pool as the new workload; then that workload is transitioned to
Delete (and queued for its node) and the farm entry is swapped from `r'` to
the new workload's id; otherwise the request fails with 409 Conflict and no
state is changed. -/
theorem C4_swap_is_pool_scoped (db : Db) (w : WorkloaderType) (addr : String)
    (node : Node) (farm : Farm) (pubIP : FarmIP)
    (hnode : findNode db.nodes w.nodeId = some node)
    (hfarm : db.farms.find? (fun f => decide (f.id = node.farmId)) = some farm)
    (hip : farm.ipAddresses.find? (fun ip => decide (ip.address = addr)) = some pubIP)
    (hr : pubIP.reservationId ≠ 0) :
    (db.workloads.find? (fun x => decide (x.id = pubIP.reservationId ∧
        x.poolId = w.poolId ∧ x.nextAction = .deploy)) = none →
      handlePublicIPReservation db w addr =
        (db, some (.conflict "ip address already in use by another pool")) ∧
      (Response.conflict "ip address already in use by another pool").statusCode = 409) ∧
    (∀ wl, db.workloads.find? (fun x => decide (x.id = pubIP.reservationId ∧
        x.poolId = w.poolId ∧ x.nextAction = .deploy)) = some wl →
      handlePublicIPReservation db w addr =
        (applyFarmSwap (setWorkloadDelete db wl) farm.id addr pubIP.reservationId w.id,
         none)) := by
  have hfid : farm.id = node.farmId := by simpa using List.find?_some hfarm
  have haddr : pubIP.address = addr := by simpa using List.find?_some hip
  constructor
  · intro hnone
    refine ⟨?_, rfl⟩
    simp only [handlePublicIPReservation, hnode, hfarm, hip]
    rw [if_pos hr]
    simp only [hnone]
  · intro wl hfound
    have hfind2 : (setWorkloadDelete db wl).farms.find?
        (fun f => decide (f.id = farm.id)) = some farm := by
      show db.farms.find? (fun f => decide (f.id = farm.id)) = some farm
      rw [hfid]
      exact hfarm
    have hq : farm.ipAddresses.find? (fun ip => decide (ip.address = addr ∧
        ip.reservationId = pubIP.reservationId)) = some pubIP := by
      refine find?_strengthen hip (by simp [haddr]) ?_
      intro x hx
      simp only [decide_eq_true_eq] at hx ⊢
      exact hx.1
    have hswap : farmIPSwap (setWorkloadDelete db wl) farm.id addr
        pubIP.reservationId w.id =
        .ok (applyFarmSwap (setWorkloadDelete db wl) farm.id addr
          pubIP.reservationId w.id) := by
      simp only [farmIPSwap, hfind2]
      show (match farm.ipAddresses.find? (fun ip => decide (ip.address = addr ∧
          ip.reservationId = pubIP.reservationId)) with
        | none => Except.error ()
        | some _ => Except.ok (applyFarmSwap (setWorkloadDelete db wl) farm.id addr
            pubIP.reservationId w.id)) = _
      rw [hq]
    simp only [handlePublicIPReservation, hnode, hfarm, hip]
    rw [if_pos hr]
    simp only [hfound, hswap]

/-- C4 witness: when the old holder of the address sits in the claimant's
pool, the swap goes through — the old reservation is flipped to Delete and
queued, and the farm row is re-bound from 10 to 11. -/
theorem C4_witness :
    handlePublicIPReservation c4DbSame c4New "203.0.113.7" =
      (applyFarmSwap (setWorkloadDelete c4DbSame c4OldSame) 7 "203.0.113.7" 10 11,
       none) ∧
    (applyFarmSwap (setWorkloadDelete c4DbSame c4OldSame) 7 "203.0.113.7" 10 11).farms =
      [{ id := 7, threebotId := 0, name := "farm7",
         ipAddresses := [⟨"203.0.113.7", "203.0.113.1", 11⟩] }] ∧
    (setWorkloadDelete c4DbSame c4OldSame).workloads =
      [{ c4OldSame with nextAction := .delete }] ∧
    (setWorkloadDelete c4DbSame c4OldSame).queue =
      [⟨"n1", { c4OldSame with nextAction := .delete }⟩] := by
  have h := (C4_swap_is_pool_scoped c4DbSame c4New "203.0.113.7" c4Node c4Farm
      ⟨"203.0.113.7", "203.0.113.1", 10⟩ (by rfl) (by rfl) (by rfl) (by decide)).2
      c4OldSame (by rfl)
  exact ⟨h, by rfl, by rfl, by rfl⟩

theorem workloadsFor_mem {r : LegacyReservation} {node : String}
    {x : WorkloaderType} (hx : x ∈ r.workloadsFor node) :
    x.id = r.id ∧ x.nodeId = node ∧ x.nextAction = r.nextAction := by
  unfold LegacyReservation.workloadsFor at hx
  obtain ⟨it, hit, rfl⟩ := List.mem_map.mp hx
  have h2 := (List.mem_filter.mp hit).2
  exact ⟨rfl, by simpa using h2, rfl⟩

theorem hasNode_workloadsFor_ne {r : LegacyReservation} {node : String}
    (h : r.hasNode node = true) : r.workloadsFor node ≠ [] := by
  unfold LegacyReservation.hasNode at h
  unfold LegacyReservation.workloadsFor
  obtain ⟨it, hit, hp⟩ := List.any_eq_true.mp h
  intro hempty
  rw [List.map_eq_nil_iff] at hempty
  have hmem : it ∈ r.items.filter fun it => decide (it.nodeId = node) :=
    List.mem_filter.mpr ⟨hit, hp⟩
  rw [hempty] at hmem
  exact absurd hmem (List.not_mem_nil it)

theorem scanLegacy_spec (node : String) (l : List LegacyReservation) :
    ∀ (acc : List WorkloaderType) (last : Nat),
      List.Sorted byId l →
      (∀ r ∈ l, last ≤ r.id) →
      (∀ r ∈ l, r.hasNode node = true) →
      (∀ x ∈ acc, x.id ≤ last) →
      last ≤ (scanLegacy node l acc last).2 ∧
      (∀ x ∈ (scanLegacy node l acc last).1, x.id ≤ (scanLegacy node l acc last).2) ∧
      ((scanLegacy node l acc last).1 = acc ∧ (scanLegacy node l acc last).2 = last ∨
        ∃ x ∈ (scanLegacy node l acc last).1, x.id = (scanLegacy node l acc last).2) ∧
      (∀ x ∈ (scanLegacy node l acc last).1,
        x ∈ acc ∨ ∃ r ∈ l, (r.nextAction = .deploy ∨ r.nextAction = .delete) ∧
          x ∈ r.workloadsFor node) := by
  induction l with
  | nil =>
    intro acc last _ _ _ hAcc
    exact ⟨Nat.le_refl _, hAcc, Or.inl ⟨rfl, rfl⟩, fun x hx => Or.inl hx⟩
  | cons r rs ih =>
    intro acc last hS hL hN hAcc
    have hrs : List.Sorted byId rs := hS.of_cons
    have hrel : ∀ b ∈ rs, r.id ≤ b.id := List.rel_of_sorted_cons hS
    have hlast_r : last ≤ r.id := hL r (List.mem_cons_self r rs)
    by_cases hg : r.nextAction = .deploy ∨ r.nextAction = .delete
    · by_cases hfull : 200 ≤ (acc ++ r.workloadsFor node).length
      · have heq : scanLegacy node (r :: rs) acc last =
            (acc ++ r.workloadsFor node, r.id) := by
          simp only [scanLegacy, if_pos hg, if_pos hfull]
        rw [heq]
        refine ⟨hlast_r, ?_, ?_, ?_⟩
        · intro x hx
          rcases List.mem_append.mp hx with hx | hx
          · exact le_trans (hAcc x hx) hlast_r
          · exact le_of_eq (workloadsFor_mem hx).1
        · right
          obtain ⟨x, hx⟩ := List.exists_mem_of_ne_nil _
            (hasNode_workloadsFor_ne (hN r (List.mem_cons_self r rs)))
          exact ⟨x, List.mem_append_right _ hx, (workloadsFor_mem hx).1⟩
        · intro x hx
          rcases List.mem_append.mp hx with hx | hx
          · exact Or.inl hx
          · exact Or.inr ⟨r, List.mem_cons_self r rs, hg, hx⟩
      · have heq : scanLegacy node (r :: rs) acc last =
            scanLegacy node rs (acc ++ r.workloadsFor node) r.id := by
          simp only [scanLegacy, if_pos hg, if_neg hfull]
        rw [heq]
        have hAcc2 : ∀ x ∈ acc ++ r.workloadsFor node, x.id ≤ r.id := by
          intro x hx
          rcases List.mem_append.mp hx with hx | hx
          · exact le_trans (hAcc x hx) hlast_r
          · exact le_of_eq (workloadsFor_mem hx).1
        obtain ⟨ha, hb, hc, hd⟩ := ih (acc ++ r.workloadsFor node) r.id hrs hrel
          (fun r' hr' => hN r' (List.mem_cons_of_mem _ hr')) hAcc2
        refine ⟨le_trans hlast_r ha, hb, ?_, ?_⟩
        · rcases hc with ⟨hceq, hcl⟩ | hc
          · right
            obtain ⟨x, hx⟩ := List.exists_mem_of_ne_nil _
              (hasNode_workloadsFor_ne (hN r (List.mem_cons_self r rs)))
            rw [hceq, hcl]
            exact ⟨x, List.mem_append_right _ hx, (workloadsFor_mem hx).1⟩
          · exact Or.inr hc
        · intro x hx
          rcases hd x hx with hx2 | ⟨r', hr', hgr', hxr'⟩
          · rcases List.mem_append.mp hx2 with hx3 | hx3
            · exact Or.inl hx3
            · exact Or.inr ⟨r, List.mem_cons_self r rs, hg, hx3⟩
          · exact Or.inr ⟨r', List.mem_cons_of_mem _ hr', hgr', hxr'⟩
    · have heq : scanLegacy node (r :: rs) acc last = scanLegacy node rs acc last := by
        simp only [scanLegacy, if_neg hg]
      rw [heq]
      obtain ⟨ha, hb, hc, hd⟩ := ih acc last hrs
        (fun r' hr' => hL r' (List.mem_cons_of_mem _ hr'))
        (fun r' hr' => hN r' (List.mem_cons_of_mem _ hr')) hAcc
      refine ⟨ha, hb, hc, ?_⟩
      intro x hx
      rcases hd x hx with h1 | ⟨r', hr', hgr', hxr'⟩
      · exact Or.inl h1
      · exact Or.inr ⟨r', List.mem_cons_of_mem _ hr', hgr', hxr'⟩

theorem scanNew_spec (l : List WorkloaderType) :
    ∀ (acc : List WorkloaderType) (last : Nat),
      List.Sorted wById l →
      (∀ x ∈ l, last ≤ x.id) →
      (∀ x ∈ acc, x.id ≤ last) →
      last ≤ (scanNew l acc last).2 ∧
      (∀ x ∈ (scanNew l acc last).1, x.id ≤ (scanNew l acc last).2) ∧
      ((scanNew l acc last).1 = acc ∧ (scanNew l acc last).2 = last ∨
        ∃ x ∈ (scanNew l acc last).1, x.id = (scanNew l acc last).2) ∧
      (∀ x ∈ (scanNew l acc last).1,
        x ∈ acc ∨ (x ∈ l ∧ (x.nextAction = .deploy ∨ x.nextAction = .delete))) := by
  induction l with
  | nil =>
    intro acc last _ _ hAcc
    exact ⟨Nat.le_refl _, hAcc, Or.inl ⟨rfl, rfl⟩, fun x hx => Or.inl hx⟩
  | cons y ys ih =>
    intro acc last hS hL hAcc
    have hys : List.Sorted wById ys := hS.of_cons
    have hrel : ∀ b ∈ ys, y.id ≤ b.id := List.rel_of_sorted_cons hS
    have hlast_y : last ≤ y.id := hL y (List.mem_cons_self y ys)
    by_cases hg : y.nextAction = .deploy ∨ y.nextAction = .delete
    · by_cases hfull : 200 ≤ (acc ++ [y]).length
      · have heq : scanNew (y :: ys) acc last = (acc ++ [y], y.id) := by
          simp only [scanNew, if_pos hg, if_pos hfull]
        rw [heq]
        refine ⟨hlast_y, ?_, ?_, ?_⟩
        · intro x hx
          rcases List.mem_append.mp hx with hx | hx
          · exact le_trans (hAcc x hx) hlast_y
          · rw [List.mem_singleton.mp hx]
        · exact Or.inr ⟨y, List.mem_append_right _ (List.mem_singleton_self y), rfl⟩
        · intro x hx
          rcases List.mem_append.mp hx with hx | hx
          · exact Or.inl hx
          · rw [List.mem_singleton.mp hx]
            exact Or.inr ⟨List.mem_cons_self y ys, hg⟩
      · have heq : scanNew (y :: ys) acc last = scanNew ys (acc ++ [y]) y.id := by
          simp only [scanNew, if_pos hg, if_neg hfull]
        rw [heq]
        have hAcc2 : ∀ x ∈ acc ++ [y], x.id ≤ y.id := by
          intro x hx
          rcases List.mem_append.mp hx with hx | hx
          · exact le_trans (hAcc x hx) hlast_y
          · rw [List.mem_singleton.mp hx]
        obtain ⟨ha, hb, hc, hd⟩ := ih (acc ++ [y]) y.id hys hrel hAcc2
        refine ⟨le_trans hlast_y ha, hb, ?_, ?_⟩
        · rcases hc with ⟨hceq, hcl⟩ | hc
          · right
            rw [hceq, hcl]
            exact ⟨y, List.mem_append_right _ (List.mem_singleton_self y), rfl⟩
          · exact Or.inr hc
        · intro x hx
          rcases hd x hx with hx2 | ⟨hx2, hg2⟩
          · rcases List.mem_append.mp hx2 with hx3 | hx3
            · exact Or.inl hx3
            · rw [List.mem_singleton.mp hx3]
              exact Or.inr ⟨List.mem_cons_self y ys, hg⟩
          · exact Or.inr ⟨List.mem_cons_of_mem _ hx2, hg2⟩
    · have heq : scanNew (y :: ys) acc last = scanNew ys acc last := by
        simp only [scanNew, if_neg hg]
      rw [heq]
      obtain ⟨ha, hb, hc, hd⟩ := ih acc last hys
        (fun b hb2 => hL b (List.mem_cons_of_mem _ hb2)) hAcc
      refine ⟨ha, hb, hc, ?_⟩
      intro x hx
      rcases hd x hx with h1 | ⟨h1, h2⟩
      · exact Or.inl h1
      · exact Or.inr ⟨List.mem_cons_of_mem _ h1, h2⟩

theorem scanLegacy_length (node : String) (B : Nat) (hB : 1 ≤ B)
    (l : List LegacyReservation) :
    ∀ (acc : List WorkloaderType) (last : Nat),
      (∀ r ∈ l, (r.workloadsFor node).length ≤ B) →
      acc.length < 200 →
      (scanLegacy node l acc last).1.length ≤ 199 + B := by
  induction l with
  | nil =>
    intro acc last _ hacc
    simp only [scanLegacy]
    omega
  | cons r rs ih =>
    intro acc last hBnd hacc
    by_cases hg : r.nextAction = .deploy ∨ r.nextAction = .delete
    · by_cases hfull : 200 ≤ (acc ++ r.workloadsFor node).length
      · simp only [scanLegacy, if_pos hg, if_pos hfull]
        have hb := hBnd r (List.mem_cons_self r rs)
        simp only [List.length_append]
        omega
      · simp only [scanLegacy, if_pos hg, if_neg hfull]
        exact ih _ r.id (fun r' hr' => hBnd r' (List.mem_cons_of_mem _ hr'))
          (by omega)
    · simp only [scanLegacy, if_neg hg]
      exact ih acc last (fun r' hr' => hBnd r' (List.mem_cons_of_mem _ hr')) hacc

theorem scanNew_length (l : List WorkloaderType) :
    ∀ (acc : List WorkloaderType) (last : Nat),
      acc.length < 200 → (scanNew l acc last).1.length ≤ 200 := by
  induction l with
  | nil =>
    intro acc last hacc
    simp only [scanNew]
    omega
  | cons y ys ih =>
    intro acc last hacc
    by_cases hg : y.nextAction = .deploy ∨ y.nextAction = .delete
    · by_cases hfull : 200 ≤ (acc ++ [y]).length
      · have heq : scanNew (y :: ys) acc last = (acc ++ [y], y.id) := by
          simp only [scanNew, if_pos hg, if_pos hfull]
        rw [heq]
        simp only [List.length_append, List.length_singleton]
        omega
      · have heq : scanNew (y :: ys) acc last = scanNew ys (acc ++ [y]) y.id := by
          simp only [scanNew, if_pos hg, if_neg hfull]
        rw [heq]
        refine ih _ y.id ?_
        simp only [List.length_append, List.length_singleton] at hfull ⊢
        omega
    · simp only [scanNew, if_neg hg]
      exact ih acc last hacc

theorem le_foldr_max {α : Type} (f : α → Nat) (l : List α) (i : Nat) :
    (∀ r ∈ l, f r ≤ (l.map f).foldr max i) ∧ i ≤ (l.map f).foldr max i := by
  induction l with
  | nil => exact ⟨by simp, Nat.le_refl i⟩
  | cons r rs ih =>
    simp only [List.map_cons, List.foldr_cons]
    refine ⟨?_, le_trans ih.2 (le_max_right _ _)⟩
    intro r' hr'
    rcases List.mem_cons.mp hr' with rfl | hr'
    · exact le_max_left _ _
    · exact le_trans (ih.1 r' hr') (le_max_right _ _)

theorem legacyMatches_mem {db : Db} {node : String} {fromId : Nat}
    {r : LegacyReservation} (h : r ∈ legacyMatches db node fromId) :
    fromId ≤ r.id ∧ r.hasNode node = true ∧ r ∈ db.reservations := by
  unfold legacyMatches at h
  rw [(List.perm_insertionSort byId _).mem_iff] at h
  obtain ⟨hmem, h2⟩ := List.mem_filter.mp h
  simp only [Bool.and_eq_true, decide_eq_true_eq] at h2
  exact ⟨h2.1, h2.2, hmem⟩

theorem newMatches_mem {db : Db} {node : String} {fromId : Nat}
    {x : WorkloaderType} (h : x ∈ newMatches db node fromId) :
    fromId ≤ x.id ∧ x.nodeId = node := by
  unfold newMatches at h
  rw [(List.perm_insertionSort wById _).mem_iff] at h
  obtain ⟨-, h2⟩ := List.mem_filter.mp h
  simp only [Bool.and_eq_true, decide_eq_true_eq] at h2
  exact h2

theorem queuedFor_nodeId {db : Db} {node : String} {x : WorkloaderType}
    (hq : ∀ e ∈ db.queue, e.workload.nodeId = e.nodeId)
    (hx : x ∈ queuedFor db node) : x.nodeId = node := by
  unfold queuedFor at hx
  obtain ⟨e, he, rfl⟩ := List.mem_map.mp hx
  have he2 : e ∈ db.queue.filter fun e => decide (e.nodeId = node) :=
    List.take_subset _ _ he
  obtain ⟨hmem, hpred⟩ := List.mem_filter.mp he2
  simp only [decide_eq_true_eq] at hpred
  rw [hq e hmem, hpred]

theorem queuedFor_length (db : Db) (node : String) :
    (queuedFor db node).length ≤ 200 := by
  unfold queuedFor
  rw [List.length_map]
  exact List.length_take_le _ _

theorem scansPage_spec (db : Db) (node : String) (fromId : Nat) :
    (∀ x ∈ (scansPage db node fromId).1, x.nodeId = node ∧ fromId ≤ x.id ∧
      (x.nextAction = .deploy ∨ x.nextAction = .delete) ∧
      x.id ≤ (scansPage db node fromId).2) ∧
    ((scansPage db node fromId).1 = [] → (scansPage db node fromId).2 = fromId) ∧
    ((scansPage db node fromId).1 ≠ [] →
      (scansPage db node fromId).2 ∈
        (scansPage db node fromId).1.map WorkloaderType.id) ∧
    (scansPage db node fromId).1.length ≤ 199 + max 1 (maxLegacyBatch db node) := by
  have hB1 : 1 ≤ max 1 (maxLegacyBatch db node) := le_max_left _ _
  have hBr : ∀ r ∈ legacyMatches db node fromId,
      (r.workloadsFor node).length ≤ max 1 (maxLegacyBatch db node) := by
    intro r hr
    refine le_trans ?_ (le_max_right _ _)
    exact (le_foldr_max (fun r => (r.workloadsFor node).length)
      db.reservations 1).1 r (legacyMatches_mem hr).2.2
  obtain ⟨ha1, hb1, hc1, hd1⟩ := scanLegacy_spec node (legacyMatches db node fromId)
    [] fromId (List.sorted_insertionSort byId _)
    (fun r hr => (legacyMatches_mem hr).1)
    (fun r hr => (legacyMatches_mem hr).2.1)
    (fun x hx => absurd hx (List.not_mem_nil x))
  have hlen1 := scanLegacy_length node (max 1 (maxLegacyBatch db node)) hB1
    (legacyMatches db node fromId) [] fromId hBr (by simp)
  rcases hsl : scanLegacy node (legacyMatches db node fromId) [] fromId with ⟨acc1, last1⟩
  rw [hsl] at ha1 hb1 hc1 hd1 hlen1
  simp only at ha1 hb1 hc1 hd1 hlen1
  have hprops1 : ∀ x ∈ acc1, x.nodeId = node ∧ fromId ≤ x.id ∧
      (x.nextAction = .deploy ∨ x.nextAction = .delete) := by
    intro x hx
    rcases hd1 x hx with hx2 | ⟨r, hr, hg, hxr⟩
    · exact absurd hx2 (List.not_mem_nil x)
    · obtain ⟨hid, hnode, hna⟩ := workloadsFor_mem hxr
      exact ⟨hnode, by rw [hid]; exact (legacyMatches_mem hr).1, by rw [hna]; exact hg⟩
  by_cases hfull : 200 ≤ acc1.length
  · have hpage : scansPage db node fromId = (acc1, last1) := by
      simp only [scansPage, hsl, if_pos hfull]
    rw [hpage]
    refine ⟨?_, ?_, ?_, hlen1⟩
    · intro x hx
      obtain ⟨h1, h2, h3⟩ := hprops1 x hx
      exact ⟨h1, h2, h3, hb1 x hx⟩
    · intro hnil
      have hnil2 : acc1 = [] := hnil
      rw [hnil2] at hfull
      simp at hfull
    · intro hne
      have hne2 : acc1 ≠ [] := hne
      rcases hc1 with ⟨hceq, -⟩ | ⟨x, hx, hid⟩
      · exact absurd hceq hne2
      · exact List.mem_map.mpr ⟨x, hx, hid⟩
  · have hpage : scansPage db node fromId =
        scanNew (newMatches db node last1) acc1 last1 := by
      simp only [scansPage, hsl, if_neg hfull]
    obtain ⟨ha2, hb2, hc2, hd2⟩ := scanNew_spec (newMatches db node last1) acc1 last1
      (List.sorted_insertionSort wById _)
      (fun x hx => (newMatches_mem hx).1) hb1
    have hlen2 := scanNew_length (newMatches db node last1) acc1 last1 (by omega)
    rw [hpage]
    refine ⟨?_, ?_, ?_, le_trans hlen2 (by omega)⟩
    · intro x hx
      rcases hd2 x hx with hx2 | ⟨hx2, hg2⟩
      · obtain ⟨h1, h2, h3⟩ := hprops1 x hx2
        exact ⟨h1, h2, h3, hb2 x hx⟩
      · obtain ⟨hge, hnode⟩ := newMatches_mem hx2
        exact ⟨hnode, le_trans (le_trans ha1 hge) (le_refl _), hg2, hb2 x hx⟩
    · intro hnil
      rcases hc2 with ⟨hceq, hcl⟩ | ⟨x, hx, -⟩
      · rw [hcl]
        rw [hnil] at hceq
        rcases hc1 with ⟨-, hcl1⟩ | ⟨x, hx, -⟩
        · exact hcl1
        · rw [← hceq] at hx
          exact absurd hx (List.not_mem_nil x)
      · rw [hnil] at hx
        exact absurd hx (List.not_mem_nil x)
    · intro hne
      rcases hc2 with ⟨hceq, hcl⟩ | ⟨x, hx, hid⟩
      · rw [hceq] at hne ⊢
        rw [hcl]
        rcases hc1 with ⟨hceq1, -⟩ | ⟨x, hx, hid⟩
        · exact absurd hceq1 hne
        · exact List.mem_map.mpr ⟨x, hx, hid⟩
      · exact List.mem_map.mpr ⟨x, hx, hid⟩

/-- C5 counterexample: with `from = 100` and only the queued workload 50 for
node n1 in the store, the poll returns that workload — whose id 50 is below
the requested cursor — and sets the x-last-id header to 100, which is not
the id of any returned workload; this refutes both the "id ≥ N" bound and
the "header = max returned id" clause of the claim. -/
theorem C5_queue_breaks_id_bound_and_header :
    workloadsPoll c5Db "n1" 100 = ([c5Queued], 100) ∧
    c5Queued.id = 50 ∧ ¬(100 ≤ c5Queued.id) ∧
    (100 : Nat) ∉ [c5Queued].map WorkloaderType.id := by
  refine ⟨rfl, rfl, by decide, by decide⟩

/-- C5 amended: a node poll serves (i) pages from the legacy and new-style
scans, whose workloads all carry the requested node, ids at least `from`,
nextAction Deploy or Delete, with x-last-id the maximum returned id, and at
most 199 plus the largest legacy per-node expansion entries (at most 200
when no legacy reservation matches); (ii) when both scans return nothing,
the per-node queue (up to 200 entries, any ids and states), with x-last-id
the maximum of `from` and the queued ids; (iii) when nothing is returned at
all, x-last-id is the largest known workload id. -/
theorem C5_poll_page_and_header (db : Db) (node : String) (fromId : Nat)
    (hq : ∀ e ∈ db.queue, e.workload.nodeId = e.nodeId) :
    (workloadsPoll db node fromId).1.length ≤
      199 + max 1 (maxLegacyBatch db node) ∧
    (∀ x ∈ (workloadsPoll db node fromId).1, x.nodeId = node) ∧
    ((scansPage db node fromId).1 ≠ [] →
      workloadsPoll db node fromId = scansPage db node fromId ∧
      (∀ x ∈ (workloadsPoll db node fromId).1,
        fromId ≤ x.id ∧ (x.nextAction = .deploy ∨ x.nextAction = .delete) ∧
        x.id ≤ (workloadsPoll db node fromId).2) ∧
      (workloadsPoll db node fromId).2 ∈
        (workloadsPoll db node fromId).1.map WorkloaderType.id) ∧
    ((scansPage db node fromId).1 = [] → queuedFor db node ≠ [] →
      (workloadsPoll db node fromId).1 = queuedFor db node ∧
      (workloadsPoll db node fromId).2 =
        (queuedFor db node).foldl (fun m x => max m x.id) fromId) ∧
    ((workloadsPoll db node fromId).1 = [] →
      (workloadsPoll db node fromId).2 = lastKnownWorkloadId db) := by
  obtain ⟨hS1, hS2, hS3, hS4⟩ := scansPage_spec db node fromId
  rcases hsp : scansPage db node fromId with ⟨acc, lastID⟩
  rw [hsp] at hS1 hS2 hS3 hS4
  simp only at hS1 hS2 hS3 hS4
  by_cases hae : acc = []
  · subst hae
    have hlast : lastID = fromId := hS2 rfl
    by_cases hqe : (queuedFor db node).isEmpty
    · have hpoll : workloadsPoll db node fromId = ([], lastKnownWorkloadId db) := by
        simp [workloadsPoll, hsp, hqe]
      rw [hpoll]
      refine ⟨by simp, by simp, ?_, ?_, fun _ => rfl⟩
      · intro hne
        exact absurd rfl hne
      · intro _ hne
        rw [List.isEmpty_iff] at hqe
        exact absurd hqe hne
    · have hpoll : workloadsPoll db node fromId =
          (queuedFor db node,
           (queuedFor db node).foldl (fun m x => max m x.id) lastID) := by
        simp [workloadsPoll, hsp, hqe]
      rw [hlast] at hpoll
      rw [hpoll]
      refine ⟨?_, ?_, ?_, fun _ _ => ⟨rfl, rfl⟩, ?_⟩
      · have h200 := queuedFor_length db node
        have hB1 : 1 ≤ max 1 (maxLegacyBatch db node) := le_max_left _ _
        exact le_trans h200 (Nat.add_le_add_left hB1 199)
      · intro x hx
        exact queuedFor_nodeId hq hx
      · intro hne
        exact absurd rfl hne
      · intro hnil
        rw [List.isEmpty_iff] at hqe
        exact absurd hnil hqe
  · have hie : acc.isEmpty = false := by
      cases acc with
      | nil => exact absurd rfl hae
      | cons a l => rfl
    have hpoll : workloadsPoll db node fromId = (acc, lastID) := by
      simp [workloadsPoll, hsp, hie]
    rw [hpoll]
    refine ⟨hS4, fun x hx => (hS1 x hx).1, ?_, ?_, ?_⟩
    · intro _
      refine ⟨rfl, ?_, hS3 hae⟩
      intro x hx
      obtain ⟨-, h2, h3, h4⟩ := hS1 x hx
      exact ⟨h2, h3, h4⟩
    · intro hnil
      exact absurd hnil hae
    · intro hnil
      exact absurd hnil hae

/-- C5 witness: on the queue-only store, the scans are empty, the queue page
is served with the header advanced over `from`, the page respects the
length bound, and every entry belongs to the requested node. -/
theorem C5_witness :
    (workloadsPoll c5Db "n1" 100).1 = queuedFor c5Db "n1" ∧
    (workloadsPoll c5Db "n1" 100).2 =
      (queuedFor c5Db "n1").foldl (fun m x => max m x.id) 100 ∧
    (workloadsPoll c5Db "n1" 100).1.length ≤
      199 + max 1 (maxLegacyBatch c5Db "n1") ∧
    ∀ x ∈ (workloadsPoll c5Db "n1" 100).1, x.nodeId = "n1" := by
  have h := C5_poll_page_and_header c5Db "n1" 100 (by decide)
  have hqp := h.2.2.2.1 (by rfl) (by decide)
  exact ⟨hqp.1, hqp.2, h.1, h.2.1⟩

end TFExplorer
